import Mathlib

set_option autoImplicit false

/-!
Verification development for the snowflake-mcp-server core substrate.

Each component the claims touch is shallowly embedded from the Python
source: pure logic becomes Lean functions, stateful objects become
records with explicit state-passing, wall-clock readings and random
draws become explicit parameters, and machine floats used only for
comparisons and exact arithmetic are modelled as rationals.  External
collaborators (the warehouse driver, the sqlglot tokenizer and parser)
appear as oracle inputs; everything the repository itself computes is
translated from the source files.
-/

namespace IsoDB

/-- Session state of a pooled warehouse connection: the current database
and schema as the warehouse session reports them (`none` when unset). -/
structure ConnState where
  database : Option String
  schema : Option String
deriving Repr, DecidableEq

/-- `get_current_context` maps `result[0] or "Unknown"`: Python `or`
sends both SQL NULL (`None`) and the empty string to `"Unknown"`. -/
def orUnknown : Option String → String
  | none => "Unknown"
  | some s => if s = "" then "Unknown" else s

/-- Python truthiness of an optional string: `None` and `""` are falsy. -/
def truthy : Option String → Bool
  | none => false
  | some s => s ≠ ""

/-- The per-request mutable counters of `RequestMetrics`
(request_context.py). -/
structure RequestMetrics where
  queries_executed : Nat
  transaction_operations : Nat
  transaction_commits : Nat
  transaction_rollbacks : Nat
deriving Repr, DecidableEq

/-- The slice of `RequestContext` the database wrappers read and write. -/
structure RequestContext where
  database_context : Option String
  schema_context : Option String
  metrics : RequestMetrics
deriving Repr, DecidableEq

/-- `RequestContext.set_database_context`: always overwrites the database
context; overwrites the schema context only when `schema` is truthy. -/
def setDatabaseContext (ctx : RequestContext) (database : String)
    (schema : Option String) : RequestContext :=
  { ctx with
    database_context := some database,
    schema_context := if truthy schema then schema else ctx.schema_context }

/-- `AsyncDatabaseOperations.use_database`: issues `USE DATABASE d`. -/
def useDatabase (c : ConnState) (d : String) : ConnState :=
  { c with database := some d }

/-- `AsyncDatabaseOperations.use_schema`: issues `USE SCHEMA s`. -/
def useSchema (c : ConnState) (s : String) : ConnState :=
  { c with schema := some s }

/-- State of an `IsolatedDatabaseOperations` scope: the borrowed
connection, the request context, the captured originals and the
context-changed flag. -/
structure IsolatedOps where
  conn : ConnState
  ctx : RequestContext
  original_database : Option String
  original_schema : Option String
  context_changed : Bool
deriving Repr, DecidableEq

/-- `IsolatedDatabaseOperations.__aenter__` with a surviving connection:
captures the current database/schema through `get_current_context`. -/
def aenter (conn : ConnState) (ctx : RequestContext) : IsolatedOps :=
  { conn := conn
    ctx := ctx
    original_database := some (orUnknown conn.database)
    original_schema := some (orUnknown conn.schema)
    context_changed := false }

/-- Context-switching calls a handler may make inside an isolated scope. -/
inductive IsoOp where
  | useDatabaseIsolated (d : String)
  | useSchemaIsolated (s : String)
deriving Repr, DecidableEq

/-- `use_database_isolated` / `use_schema_isolated`: update the
connection, mirror the change into the request context, and mark the
context as changed. -/
def applyIsoOp (st : IsolatedOps) (op : IsoOp) : IsolatedOps :=
  match op with
  | .useDatabaseIsolated d =>
      { st with
        conn := useDatabase st.conn d
        ctx := setDatabaseContext st.ctx d none
        context_changed := true }
  | .useSchemaIsolated s =>
      let ctx :=
        if truthy st.ctx.database_context then
          setDatabaseContext st.ctx (st.ctx.database_context.getD "") (some s)
        else st.ctx
      { st with
        conn := useSchema st.conn s
        ctx := ctx
        context_changed := true }

/-- `IsolatedDatabaseOperations._restore_original_context`: reissue
`USE DATABASE` (and then `USE SCHEMA`) for the captured originals,
skipping falsy or `"Unknown"` values. -/
def restoreOriginalContext (st : IsolatedOps) : IsolatedOps :=
  match st.original_database with
  | none => st
  | some od =>
      if od = "" ∨ od = "Unknown" then st
      else
        let st1 := { st with conn := useDatabase st.conn od }
        match st.original_schema with
        | none => st1
        | some os =>
            if os = "" ∨ os = "Unknown" then st1
            else { st1 with conn := useSchema st1.conn os }

/-- `IsolatedDatabaseOperations.__aexit__` with a surviving connection:
restore the originals when the context was changed and a database was
captured.  It runs on both the normal and the exceptional exit path. -/
def aexit (st : IsolatedOps) : IsolatedOps :=
  if st.context_changed ∧ truthy st.original_database then
    restoreOriginalContext st
  else st

/-- One isolated-wrapper scope: enter, run any sequence of context
switches (an exception merely truncates the sequence), exit. -/
def runScope (conn : ConnState) (ctx : RequestContext) (ops : List IsoOp) :
    IsolatedOps :=
  aexit (ops.foldl applyIsoOp (aenter conn ctx))

end IsoDB

namespace TxWrap

/-- The warehouse session flag the transaction manager toggles. -/
structure TxSession where
  autocommit : Bool
deriving Repr, DecidableEq

/-- `TransactionManager` state: the in-transaction flag and the saved
original autocommit value. -/
structure TxManager where
  in_transaction : Bool
  autocommit_saved : Option Bool
deriving Repr, DecidableEq

/-- A freshly constructed `TransactionManager`. -/
def freshTm : TxManager := { in_transaction := false, autocommit_saved := none }

/-- `TransactionManager.begin_transaction`: a no-op when already in a
transaction; otherwise save autocommit, disable it and issue `BEGIN`. -/
def beginTransaction (s : TxSession) (tm : TxManager) : TxSession × TxManager :=
  if tm.in_transaction then (s, tm)
  else ({ autocommit := false },
        { in_transaction := true, autocommit_saved := some s.autocommit })

/-- `TransactionManager._cleanup_transaction`: restore the saved
autocommit value and clear the transaction state. -/
def cleanupTransaction (s : TxSession) (tm : TxManager) :
    TxSession × TxManager :=
  let s1 := match tm.autocommit_saved with
    | some b => { autocommit := b }
    | none => s
  (s1, freshTm)

/-- `TransactionManager.commit_transaction`: a no-op from idle; issues
`COMMIT` then cleans up when in a transaction. -/
def commitTm (s : TxSession) (tm : TxManager) : TxSession × TxManager :=
  if tm.in_transaction then cleanupTransaction s tm else (s, tm)

/-- `TransactionManager.rollback_transaction`: a no-op from idle; issues
`ROLLBACK` then cleans up when in a transaction. -/
def rollbackTm (s : TxSession) (tm : TxManager) : TxSession × TxManager :=
  if tm.in_transaction then cleanupTransaction s tm else (s, tm)

/-- State of a `TransactionalDatabaseOperations` scope: the session,
the request metrics and the wrapper's own transaction manager. -/
structure WrapperState where
  session : TxSession
  metrics : IsoDB.RequestMetrics
  tm : TxManager
deriving Repr, DecidableEq

/-- Transaction-related calls a handler may make on the transactional
wrapper.  `stmt_fails` records whether the executed statement (or the
BEGIN) raised; `commit_fails` whether the COMMIT issued at scope exit
raised (only reachable when `auto_commit = false` and the statement
succeeded, the one path where that COMMIT is issued). -/
inductive TxOp where
  | executeWithTransaction (auto_commit : Bool) (stmt_fails : Bool) (commit_fails : Bool)
  | beginExplicitTransaction
  | commitTransactionOp
  | rollbackTransactionOp
deriving Repr, DecidableEq

def incOps (m : IsoDB.RequestMetrics) : IsoDB.RequestMetrics :=
  { m with transaction_operations := m.transaction_operations + 1 }

def incCommits (m : IsoDB.RequestMetrics) : IsoDB.RequestMetrics :=
  { m with transaction_commits := m.transaction_commits + 1 }

def incRollbacks (m : IsoDB.RequestMetrics) : IsoDB.RequestMetrics :=
  { m with transaction_rollbacks := m.transaction_rollbacks + 1 }

/-- One call on the transactional wrapper (async_database.py lines
325-378).  `execute_with_transaction` runs a fresh `transaction_scope`;
on success with `auto_commit = false` the wrapper increments the commit
counter *before* the scope-exit COMMIT is issued, and if that COMMIT
raises, the transaction manager's `finally` still restores autocommit
and clears the transaction (so the scope's rollback is a session
no-op), the exception reaches the wrapper's `except` clause, and the
rollback counter is incremented as well.  The explicit
`begin/commit/rollback` calls use the wrapper's own manager and
increment the context counters unconditionally, exactly as the source
does. -/
def stepTxOp (st : WrapperState) (op : TxOp) : WrapperState :=
  match op with
  | .executeWithTransaction ac sf cf =>
      let m1 := incOps st.metrics
      if ac then
        { st with metrics := m1 }
      else
        let (s1, tm1) := beginTransaction st.session freshTm
        if sf then
          let (s2, _) := rollbackTm s1 tm1
          { st with session := s2, metrics := incRollbacks m1 }
        else
          let m2 := if tm1.in_transaction then incCommits m1 else m1
          let (s2, tm2) := commitTm s1 tm1
          if cf then
            let (s3, _) := rollbackTm s2 tm2
            { st with session := s3, metrics := incRollbacks m2 }
          else
            { st with session := s2, metrics := m2 }
  | .beginExplicitTransaction =>
      let m1 := incOps st.metrics
      let (s1, tm1) := beginTransaction st.session st.tm
      { session := s1, metrics := m1, tm := tm1 }
  | .commitTransactionOp =>
      let (s1, tm1) := commitTm st.session st.tm
      { session := s1, metrics := incCommits st.metrics, tm := tm1 }
  | .rollbackTransactionOp =>
      let (s1, tm1) := rollbackTm st.session st.tm
      { session := s1, metrics := incRollbacks st.metrics, tm := tm1 }

/-- Wrapper state at scope entry: fresh metrics, fresh manager. -/
def initWrapper (ac : Bool) : WrapperState :=
  { session := { autocommit := ac }
    metrics := ⟨0, 0, 0, 0⟩
    tm := freshTm }

/-- Run a sequence of wrapper calls. -/
def runTxOps (st : WrapperState) (ops : List TxOp) : WrapperState :=
  ops.foldl stepTxOp st

/-- A call sequence in which every explicit commit/rollback happens
while the wrapper's explicit transaction is open. -/
def wellScoped : WrapperState → List TxOp → Bool
  | _, [] => true
  | st, op :: rest =>
      (match op with
       | .commitTransactionOp => st.tm.in_transaction
       | .rollbackTransactionOp => st.tm.in_transaction
       | _ => true)
      && wellScoped (stepTxOp st op) rest

/-- A call sequence in which no scope-exit COMMIT raises: the
commit-fails oracle is off on every `execute_with_transaction` call
that actually issues one (`auto_commit = false` with a successful
statement). -/
def noCommitFailure : List TxOp → Bool
  | [] => true
  | op :: rest =>
      (match op with
       | .executeWithTransaction ac sf cf => ac || sf || !cf
       | _ => true)
      && noCommitFailure rest

end TxWrap

namespace AsyncPool

/-- Per-connection metadata the acquisition path reads (`in_use`,
`is_healthy` of `PooledConnection`). -/
structure ConnMeta where
  in_use : Bool
  is_healthy : Bool
deriving Repr, DecidableEq

/-- Pool state as `_get_connection` sees it under the pool lock.  The
source iterates a `set`; the embedding fixes one iteration order as a
list. -/
structure PoolState where
  connections : List ConnMeta
  max_size : Nat
  closed : Bool
deriving Repr, DecidableEq

/-- The scan `for conn in self._connections: if not conn.in_use and
conn.is_healthy: return conn` — index of the first available healthy
connection. -/
def findAvailable : List ConnMeta → Option Nat
  | [] => none
  | c :: rest =>
      if ¬c.in_use ∧ c.is_healthy then some 0
      else (findAvailable rest).map (· + 1)

/-- Outcome of `AsyncConnectionPool.acquire` /`_get_connection`.
`closedError` is the `RuntimeError` on a closed pool; `stillWaiting`
means the polling loop has not yet found a free connection after the
observed snapshots (the loop itself never terminates with an error). -/
inductive AcquireResult where
  | closedError
  | reuse (idx : Nat)
  | createNew
  | waitedFor (idx : Nat)
  | stillWaiting
deriving Repr, DecidableEq

/-- The `while True` polling loop of `_get_connection`: one pool
snapshot per 0.1 s sleep; returns the first connection that shows up
available, and simply keeps waiting otherwise. -/
def waitPoll : List (List ConnMeta) → AcquireResult
  | [] => .stillWaiting
  | snap :: rest =>
      match findAvailable snap with
      | some i => .waitedFor i
      | none => waitPoll rest

/-- `acquire` + `_get_connection`: closed check, first-available scan,
create-below-max, then the unbounded polling loop over the snapshot
trace. -/
def acquire (st : PoolState) (trace : List (List ConnMeta)) : AcquireResult :=
  if st.closed then .closedError
  else
    match findAvailable st.connections with
    | some i => .reuse i
    | none =>
        if st.connections.length < st.max_size then .createNew
        else waitPoll trace

end AsyncPool

namespace Breaker

/-- `CircuitState`. -/
inductive CState where
  | closed
  | open_
  | half_open
deriving Repr, DecidableEq

/-- `CircuitBreakerConfig`; float fields modelled as rationals. -/
structure CBConfig where
  failure_threshold : Nat
  recovery_timeout : ℚ
  success_threshold : Nat
  monitoring_window : ℚ
  exponential_backoff : Bool
  max_recovery_timeout : ℚ
  half_open_max_calls : Nat
deriving Repr, DecidableEq

/-- `CircuitBreaker` mutable state plus the metrics fields its
transition logic reads (`state_changes` and the recent-failure deque). -/
structure CBState where
  state : CState
  state_changed_at : ℚ
  failure_count : Nat
  success_count : Nat
  half_open_calls : Nat
  state_changes : Nat
  recent_failures : List ℚ
deriving Repr, DecidableEq

/-- `CircuitBreakerMetrics.get_recent_failure_count`: drop entries older
than the window, then count. -/
def recentFailureCount (fails : List ℚ) (now window : ℚ) : Nat × List ℚ :=
  let kept := fails.dropWhile (fun t => t < now - window)
  (kept.length, kept)

/-- `CircuitBreaker._get_recovery_timeout`: plain timeout, or
exponential growth `min(2 ^ (state_changes // 2), max/base)` capped at
`max_recovery_timeout`. -/
def getRecoveryTimeout (cfg : CBConfig) (st : CBState) : ℚ :=
  if ¬cfg.exponential_backoff then cfg.recovery_timeout
  else
    let m : ℚ := min ((2 : ℚ) ^ (st.state_changes / 2))
      (cfg.max_recovery_timeout / cfg.recovery_timeout)
    min (cfg.recovery_timeout * m) cfg.max_recovery_timeout

/-- `CircuitBreaker._get_retry_after`. -/
def getRetryAfter (cfg : CBConfig) (st : CBState) (now : ℚ) : ℚ :=
  max 0 (getRecoveryTimeout cfg st - (now - st.state_changed_at))

/-- `_transition_to_open`. -/
def toOpen (st : CBState) (now : ℚ) : CBState :=
  if st.state ≠ .open_ then
    { st with
      state := .open_, state_changed_at := now
      success_count := 0, half_open_calls := 0
      state_changes := st.state_changes + 1 }
  else st

/-- `_transition_to_half_open`. -/
def toHalfOpen (st : CBState) (now : ℚ) : CBState :=
  if st.state ≠ .half_open then
    { st with
      state := .half_open, state_changed_at := now
      success_count := 0, half_open_calls := 0
      state_changes := st.state_changes + 1 }
  else st

/-- `_transition_to_closed`. -/
def toClosed (st : CBState) (now : ℚ) : CBState :=
  if st.state ≠ .closed then
    { st with
      state := .closed, state_changed_at := now
      failure_count := 0, success_count := 0, half_open_calls := 0
      state_changes := st.state_changes + 1 }
  else st

/-- `CircuitBreaker._can_execute`: CLOSED always passes; OPEN passes by
transitioning to half-open once the effective recovery timeout has
elapsed; HALF_OPEN admits up to `half_open_max_calls`. -/
def canExecute (cfg : CBConfig) (st : CBState) (now : ℚ) : Bool × CBState :=
  match st.state with
  | .closed => (true, st)
  | .open_ =>
      if now - st.state_changed_at ≥ getRecoveryTimeout cfg st then
        (true, toHalfOpen st now)
      else (false, st)
  | .half_open => (st.half_open_calls < cfg.half_open_max_calls, st)

/-- `CircuitBreaker._on_success` (metric bookkeeping beyond the fields
in `CBState` is omitted as it never feeds back into transitions). -/
def onSuccess (cfg : CBConfig) (st : CBState) (now : ℚ) : CBState :=
  match st.state with
  | .half_open =>
      let st1 := { st with success_count := st.success_count + 1 }
      if st1.success_count ≥ cfg.success_threshold then toClosed st1 now
      else st1
  | .closed => { st with failure_count := 0 }
  | .open_ => st

/-- `CircuitBreaker._on_failure`: in CLOSED, bump the counter, record
the failure and open when either the counter or the windowed failure
count reaches the threshold; in HALF_OPEN any failure reopens. -/
def onFailure (cfg : CBConfig) (st : CBState) (now : ℚ) : CBState :=
  match st.state with
  | .closed =>
      let st1 := { st with
        failure_count := st.failure_count + 1
        recent_failures := st.recent_failures ++ [now] }
      let (recent, kept) :=
        recentFailureCount st1.recent_failures now cfg.monitoring_window
      let st2 := { st1 with recent_failures := kept }
      if st2.failure_count ≥ cfg.failure_threshold ∨
          recent ≥ cfg.failure_threshold then
        toOpen st2 now
      else st2
  | .half_open =>
      let st1 := { st with recent_failures := st.recent_failures ++ [now] }
      toOpen st1 now
  | .open_ => { st with recent_failures := st.recent_failures ++ [now] }

/-- Outcome of `CircuitBreaker.call`: either rejected without invoking
the wrapped function, or executed with the oracle outcome `ok`. -/
inductive CallOutcome where
  | rejected (retry_after : ℚ)
  | executed (ok : Bool)
deriving Repr, DecidableEq

/-- `CircuitBreaker.call`: gate through `_can_execute` (rejecting with
`CircuitBreakerOpenError` and a retry-after), count half-open calls,
run the wrapped function (outcome given by the oracle `ok`), then
record success or failure. -/
def call (cfg : CBConfig) (st : CBState) (now : ℚ) (ok : Bool) :
    CallOutcome × CBState :=
  let (can, st1) := canExecute cfg st now
  if ¬can then (.rejected (getRetryAfter cfg st1 now), st1)
  else
    let st2 :=
      if st1.state = .half_open then
        { st1 with half_open_calls := st1.half_open_calls + 1 }
      else st1
    if ok then (.executed true, onSuccess cfg st2 now)
    else (.executed false, onFailure cfg st2 now)

end Breaker

namespace RateLimit

/-- `TokenBucket` state; `tokens` is a float in the source, exact here. -/
structure Bucket where
  capacity : ℚ
  refill_rate : ℚ
  tokens : ℚ
  last_refill : ℚ
deriving Repr, DecidableEq

/-- `TokenBucket.__init__` with default initial tokens. -/
def mkBucket (capacity refill_rate now : ℚ) : Bucket :=
  { capacity := capacity, refill_rate := refill_rate
    tokens := capacity, last_refill := now }

/-- `TokenBucket._refill`. -/
def refill (b : Bucket) (now : ℚ) : Bucket :=
  let elapsed := now - b.last_refill
  if elapsed > 0 then
    { b with
      tokens := min b.capacity (b.tokens + elapsed * b.refill_rate)
      last_refill := now }
  else b

/-- `TokenBucket.consume`: returns `(success, retry_after)` and the new
state. -/
def consume (b : Bucket) (now : ℚ) (amount : ℚ) : (Bool × ℚ) × Bucket :=
  let b1 := refill b now
  if b1.tokens ≥ amount then
    ((true, 0), { b1 with tokens := b1.tokens - amount })
  else
    ((false, (amount - b1.tokens) / b1.refill_rate), b1)

/-- Run a sequence of single-token `consume` calls (the shape
`check_limits` uses) at the given times, collecting the results. -/
def consumeRun (b : Bucket) : List ℚ → List (Bool × ℚ) × Bucket
  | [] => ([], b)
  | t :: ts =>
      let (r, b1) := consume b t 1
      let (rs, b2) := consumeRun b1 ts
      (r :: rs, b2)

/-- Number of successful consumes in a result list. -/
def successCount (rs : List (Bool × ℚ)) : Nat :=
  (rs.filter (fun r => r.1 = true)).length

end RateLimit

namespace Backoff

/-- `BackoffStrategy`. -/
inductive Strategy where
  | fixed | linear | exponential | fibonacci | polynomial | custom
deriving Repr, DecidableEq

/-- The `jitter_type` string: `"full"`, `"equal"`, `"decorrelated"`, or
anything else (the limited-jitter fallback branch). -/
inductive JitterKind where
  | full | equal | decorrelated | other
deriving Repr, DecidableEq

/-- `BackoffConfig`; float fields as rationals, the optional custom
function as a Lean function. -/
structure BackoffConfig where
  strategy : Strategy
  initial_delay : ℚ
  max_delay : ℚ
  max_attempts : Nat
  exponential_base : ℚ
  exponential_cap : ℚ
  linear_increment : ℚ
  polynomial_degree : Nat
  fibonacci_multiplier : ℚ
  jitter : Bool
  jitter_type : JitterKind
  jitter_max_ratio : ℚ
  custom_function : Option (Nat → ℚ → ℚ)
  total_timeout : Option ℚ

/-- The local `fibonacci` helper of `_fibonacci_delay`. -/
def fib : Nat → Nat
  | 0 => 0
  | 1 => 1
  | n + 2 => fib n + fib (n + 1)

/-- The strategy dispatch at the top of `_calculate_delay`. -/
def rawDelay (cfg : BackoffConfig) (attempt : Nat) : ℚ :=
  match cfg.strategy with
  | .fixed => cfg.initial_delay
  | .linear => cfg.initial_delay + attempt * cfg.linear_increment
  | .exponential =>
      min (cfg.initial_delay * cfg.exponential_base ^ attempt)
        cfg.exponential_cap
  | .fibonacci =>
      cfg.initial_delay * cfg.fibonacci_multiplier * (fib (attempt + 1) : ℚ)
  | .polynomial => cfg.initial_delay * ((attempt ^ cfg.polynomial_degree : Nat) : ℚ)
  | .custom =>
      match cfg.custom_function with
      | some f => f attempt cfg.initial_delay
      | none => cfg.initial_delay

/-- `_apply_jitter`; `rng a lo hi` is the oracle for
`random.uniform(lo, hi)` at attempt `a`. -/
def applyJitter (cfg : BackoffConfig) (rng : Nat → ℚ → ℚ → ℚ)
    (delay : ℚ) (attempt : Nat) : ℚ :=
  if ¬cfg.jitter then delay
  else
    match cfg.jitter_type with
    | .full => rng attempt 0 delay
    | .equal => delay / 2 + rng attempt 0 (delay / 2)
    | .decorrelated =>
        if attempt = 0 then delay
        else rng attempt cfg.initial_delay (delay * 3)
    | .other =>
        let j := delay * cfg.jitter_max_ratio
        delay + rng attempt (-j) j

/-- `Backoff._calculate_delay`. -/
def calcDelay (cfg : BackoffConfig) (rng : Nat → ℚ → ℚ → ℚ)
    (attempt : Nat) : ℚ :=
  let d := rawDelay cfg attempt
  let d1 := min d cfg.max_delay
  let d2 := if cfg.jitter then applyJitter cfg rng d1 attempt else d1
  max 0 d2

/-- The timeout stop condition of `__next__`: note the Python truthiness
test `self.config.total_timeout and ...` ignores a configured `0.0`. -/
def stopByTimeout (cfg : BackoffConfig) (elapsed : ℚ) : Bool :=
  match cfg.total_timeout with
  | some t => t ≠ 0 ∧ elapsed ≥ t
  | none => false

/-- `Backoff.__next__` at attempt counter `count` with the given
elapsed wall-clock time: `none` is `StopIteration`. -/
def nextValue (cfg : BackoffConfig) (rng : Nat → ℚ → ℚ → ℚ)
    (count : Nat) (elapsed : ℚ) : Option ℚ :=
  if count ≥ cfg.max_attempts then none
  else if stopByTimeout cfg elapsed then none
  else some (calcDelay cfg rng count)

/-- Drive the iterator: `elapses` lists the wall-clock elapsed time
observed at each `__next__` call; the produced delays are collected
until `StopIteration` (or the caller stops pulling). -/
def produce (cfg : BackoffConfig) (rng : Nat → ℚ → ℚ → ℚ) :
    Nat → List ℚ → List ℚ
  | _, [] => []
  | count, e :: es =>
      match nextValue cfg rng count e with
      | none => []
      | some d => d :: produce cfg rng (count + 1) es

end Backoff

namespace Quota

/-- A UTC timestamp at second resolution, mirroring the
`datetime.now(timezone.utc)` values the quota logic compares. -/
structure DT where
  year : Nat
  month : Nat
  day : Nat
  hour : Nat
  minute : Nat
  second : Nat
deriving Repr, DecidableEq

/-- Linearisation of a (valid) timestamp; on in-range field values it
induces exactly the lexicographic order Python datetimes compare by. -/
def DT.key (d : DT) : Nat :=
  ((((d.year * 13 + d.month) * 32 + d.day) * 24 + d.hour) * 60 + d.minute)
      * 60 + d.second

/-- Days since 1970-01-01 (proleptic Gregorian, Hinnant's civil
algorithm), used to recover Python's `date.weekday()`. -/
def daysFromCivil (y m d : Int) : Int :=
  let y1 : Int := if m ≤ 2 then y - 1 else y
  let era : Int := (if y1 ≥ 0 then y1 else y1 - 399) / 400
  let yoe : Int := y1 - era * 400
  let mp : Int := (m + 9) % 12
  let doy : Int := (153 * mp + 2) / 5 + d - 1
  let doe : Int := yoe * 365 + yoe / 4 - yoe / 100 + doy
  era * 146097 + doe - 719468

/-- Python `date.weekday()`: Monday is 0.  1970-01-01 was a Thursday. -/
def DT.weekday (d : DT) : Nat :=
  ((daysFromCivil d.year d.month d.day + 3).emod 7).toNat

def sameDate (a b : DT) : Bool :=
  a.year = b.year ∧ a.month = b.month ∧ a.day = b.day

def isLeap (y : Nat) : Bool := (y % 4 = 0 ∧ y % 100 ≠ 0) ∨ y % 400 = 0

def daysInMonth (y m : Nat) : Nat :=
  if m = 2 then (if isLeap y then 29 else 28)
  else if m = 4 ∨ m = 6 ∨ m = 9 ∨ m = 11 then 30
  else 31

/-- Calendar successor day (clock fields preserved). -/
def nextDay (d : DT) : DT :=
  if d.day < daysInMonth d.year d.month then { d with day := d.day + 1 }
  else if d.month < 12 then { d with month := d.month + 1, day := 1 }
  else { d with year := d.year + 1, month := 1, day := 1 }

def addDays : DT → Nat → DT
  | d, 0 => d
  | d, n + 1 => addDays (nextDay d) n

/-- `+ timedelta(hours=1)` with day rollover. -/
def addOneHour (d : DT) : DT :=
  if d.hour < 23 then { d with hour := d.hour + 1 }
  else nextDay { d with hour := 0 }

/-- `QuotaPeriod`. -/
inductive QuotaPeriod where
  | hourly | daily | weekly | monthly | custom
deriving Repr, DecidableEq

/-- `QuotaLimit` (the `quota_type` tag is irrelevant to the per-type
dynamics and omitted). -/
structure QuotaLimit where
  limit : Int
  period : QuotaPeriod
  soft_limit : Int
  reset_time : Option DT
  rollover_allowed : Bool
  burst_allowance : Int
deriving Repr, DecidableEq

/-- `QuotaUsage` for one quota type. -/
structure QuotaUsage where
  current_usage : Int
  peak_usage : Int
  last_reset : DT
  warning_triggered : Bool
  limit_exceeded : Bool
  burst_used : Int
  rollover_balance : Int
  usage_history : List (DT × Int)
deriving Repr, DecidableEq

/-- Python `//` (floor division). -/
def pyFloorDiv (a b : Int) : Int := Int.fdiv a b

/-- `ClientQuota.reset_quota`: compute the rollover from the pre-reset
usage (at most half the base limit, only without `force`), then zero
the counters and flags and stamp `last_reset`.  The usage history is
not cleared by the source. -/
def resetQuota (lim : QuotaLimit) (u : QuotaUsage) (now : DT)
    (force : Bool) : QuotaUsage :=
  let rb : Int :=
    if lim.rollover_allowed ∧ ¬force then
      let unused := max 0 (lim.limit - u.current_usage)
      min unused (pyFloorDiv lim.limit 2)
    else 0
  { u with
    rollover_balance := rb
    current_usage := 0
    peak_usage := 0
    burst_used := 0
    warning_triggered := false
    limit_exceeded := false
    last_reset := now }

/-- `ClientQuota._check_reset_needed`'s period test. -/
def resetNeeded (lim : QuotaLimit) (u : QuotaUsage) (now : DT) : Bool :=
  match lim.period with
  | .hourly => now.hour ≠ u.last_reset.hour ∨ ¬sameDate now u.last_reset
  | .daily => ¬sameDate now u.last_reset
  | .weekly => now.weekday = 0 ∧ ¬sameDate now u.last_reset
  | .monthly =>
      now.month ≠ u.last_reset.month ∨ now.year ≠ u.last_reset.year
  | .custom =>
      match lim.reset_time with
      | some rt => rt.key ≤ now.key
      | none => false

/-- `_check_reset_needed`: reset in place when the period boundary has
been crossed. -/
def checkResetNeeded (lim : QuotaLimit) (u : QuotaUsage) (now : DT) :
    QuotaUsage :=
  if resetNeeded lim u now then resetQuota lim u now false else u

/-- `ClientQuota._get_next_reset_time`. -/
def nextResetTime (lim : QuotaLimit) (now : DT) : DT :=
  match lim.period with
  | .hourly => addOneHour { now with minute := 0, second := 0 }
  | .daily => nextDay { now with hour := 0, minute := 0, second := 0 }
  | .weekly =>
      let du0 := (7 - now.weekday) % 7
      let du := if du0 = 0 then 7 else du0
      addDays { now with hour := 0, minute := 0, second := 0 } du
  | .monthly =>
      if now.month = 12 then
        { year := now.year + 1, month := 1, day := 1
          hour := 0, minute := 0, second := 0 }
      else
        { now with month := now.month + 1, day := 1
                   hour := 0, minute := 0, second := 0 }
  | .custom =>
      match lim.reset_time with
      | some rt => rt
      | none => addOneHour now

/-- `_trim_usage_history` with the default 1000-entry cap. -/
def trimHistory (h : List (DT × Int)) : List (DT × Int) :=
  if h.length > 1000 then h.drop (h.length - 1000) else h

/-- The payload of `QuotaExceededError`. -/
structure QuotaError where
  current_usage : Int
  limit : Int
  reset_time : DT
deriving Repr, DecidableEq

/-- Result of `ClientQuota.consume_quota`: success or a raised
`QuotaExceededError`, each with the post-call usage state (the
`limit_exceeded` flag mutation precedes the raise in the source). -/
inductive ConsumeResult where
  | ok (u : QuotaUsage)
  | exceeded (e : QuotaError) (u : QuotaUsage)
deriving Repr, DecidableEq

def ConsumeResult.usage : ConsumeResult → QuotaUsage
  | .ok u => u
  | .exceeded _ u => u

/-- `ClientQuota.consume_quota` for one quota type (quota types do not
interact in the source, so the per-type projection is exact). -/
def consumeQuota (lim : QuotaLimit) (u0 : QuotaUsage) (now : DT)
    (amount : Int) : ConsumeResult :=
  let u := checkResetNeeded lim u0 now
  let available :=
    lim.limit + u.rollover_balance + (lim.burst_allowance - u.burst_used)
  if u.current_usage + amount ≤ available then
    let u1 := { u with current_usage := u.current_usage + amount }
    let u2 := { u1 with peak_usage := max u1.peak_usage u1.current_usage }
    let u3 :=
      if u2.current_usage > lim.limit + u2.rollover_balance then
        { u2 with
          burst_used := u2.current_usage - (lim.limit + u2.rollover_balance) }
      else u2
    let u4 :=
      { u3 with usage_history := trimHistory (u3.usage_history ++ [(now, amount)]) }
    let u5 :=
      if ¬u4.warning_triggered ∧ u4.current_usage ≥ lim.soft_limit then
        { u4 with warning_triggered := true }
      else u4
    .ok u5
  else
    let u1 := { u with limit_exceeded := true }
    .exceeded
      { current_usage := u1.current_usage
        limit := available
        reset_time := nextResetTime lim now }
      u1

/-- State of `QuotaManager` projected to one (client, quota-type) pair:
the global usage counter for that type and the client's usage record. -/
structure MgrState where
  global_usage : Int
  client : QuotaUsage
deriving Repr, DecidableEq

/-- Result of `QuotaManager.consume_quota`. -/
inductive MgrResult where
  | ok
  | globalExceeded
  | clientExceeded (e : QuotaError)
deriving Repr, DecidableEq

/-- `QuotaManager.consume_quota`: the global layer checks and
increments its bare counter first (no rollover, no burst, never reset);
then the client quota is consumed.  Note the global increment is not
rolled back when the client layer raises. -/
def managerConsume (glimit : Int) (lim : QuotaLimit) (st : MgrState)
    (now : DT) (amount : Int) : MgrResult × MgrState :=
  if st.global_usage + amount > glimit then
    (.globalExceeded, st)
  else
    let g1 := st.global_usage + amount
    match consumeQuota lim st.client now amount with
    | .ok u => (.ok, { global_usage := g1, client := u })
    | .exceeded e u => (.clientExceeded e, { global_usage := g1, client := u })

/-- The `QuotaManager` operations that touch quota state for a
(client, type) pair: `consume_quota`, the read-only
`check_quota_available`, and `reset_client_quotas` (a forced client
reset).  No operation in quota_manager.py writes `global_usage`
except the consume increment. -/
inductive MgrOp where
  | consume (now : DT) (amount : Int)
  | checkAvailable
  | resetClient (now : DT)
deriving Repr, DecidableEq

def mgrStep (glimit : Int) (lim : QuotaLimit) (st : MgrState) :
    MgrOp → MgrState
  | .consume now a => (managerConsume glimit lim st now a).2
  | .checkAvailable => st
  | .resetClient now => { st with client := resetQuota lim st.client now true }

def mgrRun (glimit : Int) (lim : QuotaLimit) (st : MgrState)
    (ops : List MgrOp) : MgrState :=
  ops.foldl (mgrStep glimit lim) st

end Quota

namespace SQLV

/-- Regular expressions over characters, enough for the validator's
pattern families (character classes, concatenation, alternation,
repetition). -/
inductive RE where
  | emp
  | eps
  | cls (p : Char → Bool)
  | alt (a b : RE)
  | cat (a b : RE)
  | star (a : RE)

def nullable : RE → Bool
  | .emp => false
  | .eps => true
  | .cls _ => false
  | .alt a b => nullable a || nullable b
  | .cat a b => nullable a && nullable b
  | .star _ => true

/-- Brzozowski derivative. -/
def deriv (r : RE) (c : Char) : RE :=
  match r with
  | .emp => .emp
  | .eps => .emp
  | .cls p => if p c then .eps else .emp
  | .alt a b => .alt (deriv a c) (deriv b c)
  | .cat a b =>
      if nullable a then .alt (.cat (deriv a c) b) (deriv b c)
      else .cat (deriv a c) b
  | .star a => .cat (deriv a c) (.star a)

/-- Whole-string match. -/
def matchesFrom (r : RE) (cs : List Char) : Bool :=
  nullable (cs.foldl deriv r)

def anyc : RE := .cls (fun _ => true)

/-- `re.search`: some substring matches. -/
def reSearch (r : RE) (s : String) : Bool :=
  matchesFrom (.cat (.star anyc) (.cat r (.star anyc))) s.data

/-- Case-insensitive literal character (all patterns are compiled with
`re.IGNORECASE`; pattern letters are written lowercase). -/
def rchar (c : Char) : RE := .cls (fun x => x.toLower = c)

def rstr (s : String) : RE := s.data.foldr (fun c acc => .cat (rchar c) acc) .eps

def rseq (l : List RE) : RE := l.foldr .cat .eps

def ropt (r : RE) : RE := .alt .eps r

def rplus (r : RE) : RE := .cat r (.star r)

def rrep (r : RE) : Nat → RE
  | 0 => .eps
  | n + 1 => .cat r (rrep r n)

/-- Bounded-below repetition, for the `{2,}`-style quantifiers. -/
def atLeast (r : RE) (n : Nat) : RE := .cat (rrep r n) (.star r)

/-- Python `\s` (ASCII range). -/
def isPySpace (c : Char) : Bool :=
  c = ' ' ∨ c = '\t' ∨ c = '\n' ∨ c = '\r' ∨ c.val = 11 ∨ c.val = 12

def wsp : RE := .cls isPySpace
def wsStar : RE := .star wsp
def wsPlus : RE := rplus wsp
def rdigit : RE := .cls Char.isDigit
def rword : RE := .cls (fun c => c.isAlphanum ∨ c = '_')

def isHexDig (c : Char) : Bool :=
  c.isDigit ∨ (('a' ≤ c.toLower) ∧ (c.toLower ≤ 'f'))

def rhex : RE := .cls isHexDig

def sqc : Char := Char.ofNat 39
def dqc : Char := Char.ofNat 34
def bslash : Char := Char.ofNat 92

/-- Character class of the two SQL quote characters. -/
def rquote : RE := .cls (fun c => c = sqc ∨ c = dqc)

def rcmp : RE := .cls (fun c => c = '=' ∨ c = '<' ∨ c = '>')

def randor : RE := .alt (rstr "and") (rstr "or")

/-- `SQLPatternMatcher.critical_patterns`, in source order. -/
def criticalPatterns : List RE :=
  [ rseq [rstr "union", wsPlus, ropt (rseq [rstr "all", wsPlus]), rstr "select"]
  , rseq [rstr "union", wsPlus, ropt (rseq [rstr "distinct", wsPlus]), rstr "select"]
  , rseq [randor, wsPlus, rplus rdigit, wsStar, rcmp, wsStar, rplus rdigit]
  , rseq [randor, wsPlus, rquote, rplus rword, ropt rquote, wsStar, rcmp,
          wsStar, rquote, rplus rword, ropt rquote]
  , rseq [rstr "waitfor", wsPlus, rstr "delay"]
  , rseq [rstr "sleep", wsStar, rchar '(']
  , rseq [rstr "pg_sleep", wsStar, rchar '(']
  , rseq [rstr "benchmark", wsStar, rchar '(']
  , rseq [rchar ';', wsStar,
          [rstr "insert", rstr "update", rstr "delete", rstr "drop",
           rstr "create", rstr "alter", rstr "grant",
           rstr "revoke"].foldr .alt .emp]
  , rstr "information_schema."
  , rstr "sys."
  , rstr "mysql."
  , rstr "xp_cmdshell"
  , rstr "sp_execute"
  , rseq [rstr "exec", wsStar, rchar '(']
  , rseq [rstr "execute", wsStar, rchar '(']
  , rseq [rstr "load_file", wsStar, rchar '(']
  , rseq [rstr "into", wsPlus, rstr "outfile"]
  , rseq [rstr "into", wsPlus, rstr "dumpfile"] ]

/-- `SQLPatternMatcher.high_risk_patterns`. -/
def highRiskPatterns : List RE :=
  [ .alt (rstr "--") (.alt (rchar '#') (rseq [rchar '/', rchar '*']))
  , rseq [rstr "0x", rplus rhex]
  , rseq [rstr "char", wsStar, rchar '(']
  , rseq [rstr "chr", wsStar, rchar '(']
  , rseq [rstr "ascii", wsStar, rchar '(']
  , rseq [rstr "concat", wsStar, rchar '(']
  , rseq [rstr "group_concat", wsStar, rchar '(']
  , rstr "@@version"
  , rstr "@@global"
  , rseq [rstr "version", wsStar, rchar '(']
  , rseq [rstr "user", wsStar, rchar '(']
  , rseq [rstr "database", wsStar, rchar '(']
  , rseq [rstr "schema", wsStar, rchar '('] ]

/-- `SQLPatternMatcher.medium_risk_patterns`. -/
def mediumRiskPatterns : List RE :=
  [ rseq [.cls (· = sqc), .star (.cls (· ≠ sqc)), .cls (· = sqc),
          .star (.cls (· ≠ sqc)), .cls (· = sqc)]
  , rseq [randor, wsPlus, .star (.cls (fun c => c.isAlphanum ∨ c = '_' ∨ isPySpace c)),
          [rstr "=", rstr "<>", rstr "!=", rstr "like"].foldr .alt .emp]
  , rseq [rchar '(', wsStar, rstr "select", wsPlus]
  , rseq [rstr "case", wsPlus, rstr "when"]
  , rseq [rstr "cast", wsStar, rchar '(']
  , rseq [rstr "convert", wsStar, rchar '('] ]

/-- `SQLPatternMatcher.low_risk_patterns`. -/
def lowRiskPatterns : List RE :=
  [ atLeast (.cls (fun c => c = '=' ∨ c = '<' ∨ c = '>' ∨ c = '!')) 2
  , atLeast wsp 5
  , atLeast (.cls (fun c => c = '%' ∨ c = '_' ∨ c = '*')) 3 ]

/-- `SQLInjectionRisk`. -/
inductive Risk where
  | none_ | low | medium | high | critical
deriving Repr, DecidableEq

/-- Position in `list(SQLInjectionRisk)`, the key Python's `max` uses. -/
def Risk.idx : Risk → Nat
  | .none_ => 0
  | .low => 1
  | .medium => 2
  | .high => 3
  | .critical => 4

/-- `max(a, b, key=index)`: Python returns the first argument on ties. -/
def maxRisk (a b : Risk) : Risk := if b.idx > a.idx then b else a

/-- `SQLPatternMatcher.analyze_query`: scan the four families in
escalating order, where a family is only consulted when no stronger
family matched. -/
def analyzePatterns (query : String) : Risk × List String :=
  let crit := criticalPatterns.filterMap fun p =>
    if reSearch p query then some "Critical pattern detected" else none
  let r1 := if crit.isEmpty then Risk.none_ else Risk.critical
  let high := if r1 ≠ Risk.critical then
      highRiskPatterns.filterMap fun p =>
        if reSearch p query then some "High-risk pattern detected" else none
    else []
  let r2 := if high.isEmpty then r1 else Risk.high
  let med := if r2 ≠ Risk.critical ∧ r2 ≠ Risk.high then
      mediumRiskPatterns.filterMap fun p =>
        if reSearch p query then some "Medium-risk pattern detected" else none
    else []
  let r3 := if med.isEmpty then r2 else Risk.medium
  let low := if r3 = Risk.none_ then
      lowRiskPatterns.filterMap fun p =>
        if reSearch p query then some "Low-risk pattern detected" else none
    else []
  let r4 := if low.isEmpty then r3 else Risk.low
  (r4, crit ++ high ++ med ++ low)

/-- The sqlglot token types the analyzer inspects; everything else is
`OTHER`. -/
inductive TokenType where
  | SELECT | INSERT | UPDATE | DELETE | CREATE | DROP | ALTER | TRUNCATE
  | GRANT | REVOKE | EXECUTE | CALL | UNION | ALL | AND | OR | NUMBER | EQ
  | COMMENT | BLOCK_COMMENT | STRING | TABLE | VAR | OTHER
deriving Repr, DecidableEq

/-- A sqlglot token: type and raw text. -/
structure Token where
  token_type : TokenType
  text : String
deriving Repr, DecidableEq

/-- `QueryType`. -/
inductive QueryType where
  | select | insert | update | delete | create | drop | alter | truncate
  | grant | revoke | execute | call | unknown
deriving Repr, DecidableEq

def stmtTokenTypes : List TokenType :=
  [.SELECT, .INSERT, .UPDATE, .DELETE, .CREATE, .DROP,
   .ALTER, .TRUNCATE, .GRANT, .REVOKE, .EXECUTE, .CALL]

/-- `QueryType(token.token_type.name.lower())`. -/
def tokenTypeToQueryType : TokenType → QueryType
  | .SELECT => .select
  | .INSERT => .insert
  | .UPDATE => .update
  | .DELETE => .delete
  | .CREATE => .create
  | .DROP => .drop
  | .ALTER => .alter
  | .TRUNCATE => .truncate
  | .GRANT => .grant
  | .REVOKE => .revoke
  | .EXECUTE => .execute
  | .CALL => .call
  | _ => .unknown

/-- `SQLTokenAnalyzer.forbidden_tokens_readonly`. -/
def forbiddenReadonly : List TokenType :=
  [.INSERT, .UPDATE, .DELETE, .DROP, .CREATE, .ALTER,
   .TRUNCATE, .GRANT, .REVOKE, .EXECUTE]

/-- `SQLTokenAnalyzer.suspicious_token_sequences`. -/
def suspiciousSequences : List (List TokenType) :=
  [[.UNION, .SELECT], [.UNION, .ALL, .SELECT],
   [.AND, .NUMBER, .EQ, .NUMBER], [.OR, .NUMBER, .EQ, .NUMBER],
   [.COMMENT], [.BLOCK_COMMENT]]

/-- `SQLTokenAnalyzer._matches_sequence`. -/
def matchesSequence (ts : List Token) (pat : List TokenType) : Bool :=
  if ts.length < pat.length then false
  else (pat.zip ts).all fun pt => pt.2.token_type = pt.1

/-- Python `text.strip("'\x22")`: strip quote characters from both
ends. -/
def stripQuotes (s : String) : String :=
  let isQ : Char → Bool := fun c => c = sqc ∨ c = dqc
  String.mk (((s.data.dropWhile isQ).reverse.dropWhile isQ).reverse)

def sqlKeywordsInStrings : List String :=
  ["select", "union", "insert", "update", "delete", "drop", "exec"]

/-- The `[;\x00-\x1f\x7f-\xff]` class of `_is_suspicious_string`. -/
def reCtrl : RE :=
  .cls fun c => c = ';' ∨ c.val ≤ 31 ∨ (127 ≤ c.val ∧ c.val ≤ 255)

/-- The percent/entity/hex-escape alternation of
`_is_suspicious_string` (compiled with IGNORECASE). -/
def reEncoded : RE :=
  .alt (rseq [rchar '&', rchar '#', ropt (rchar 'x'), rplus rhex, rchar ';'])
    (.alt (rseq [rchar '%', rrep rhex 2])
      (rseq [.cls (· = bslash), rchar 'x', rrep rhex 2]))

/-- `SQLTokenAnalyzer._is_suspicious_string`. -/
def isSuspiciousString (text : String) : Bool :=
  let content := stripQuotes text
  sqlKeywordsInStrings.any (fun k => reSearch (rstr k) content)
  || reSearch reCtrl content
  || reSearch reEncoded content

/-- `SQLTokenAnalyzer.analyze_tokens`.  Tokenization itself is the
external sqlglot library: its output (or `none` for a raised
exception) is an oracle input; everything after the `tokenize` call is
translated from the source.  Note the sequence scan stops one short of
the last index (`range(len(token_list) - 1)`), exactly as the source
does. -/
def analyzeTokens (tokres : Option (List Token)) (readonly_mode : Bool) :
    List String × QueryType :=
  match tokres with
  | none => (["Token analysis failed"], .unknown)
  | some ts =>
    if ts.isEmpty then (["Empty query"], .unknown)
    else
      let qt :=
        match ts.find? (fun t => t.token_type ∈ stmtTokenTypes) with
        | some t => tokenTypeToQueryType t.token_type
        | none => QueryType.unknown
      let forb :=
        if readonly_mode then
          ts.filterMap fun t =>
            if t.token_type ∈ forbiddenReadonly then
              some "Forbidden operation in readonly mode" else none
        else []
      let seqs :=
        ((List.range (ts.length - 1)).map fun i =>
          suspiciousSequences.filterMap fun pat =>
            if matchesSequence (ts.drop i) pat then
              some "Suspicious token sequence detected" else none).flatten
      let ccount := (ts.filter fun t =>
        t.token_type = .COMMENT ∨ t.token_type = .BLOCK_COMMENT).length
      let comm := if ccount > 3 then ["Excessive comments detected"] else []
      let strs :=
        (ts.filter (fun t => t.token_type = .STRING)).filterMap fun t =>
          if isSuspiciousString t.text then
            some "Suspicious string literal" else none
      (forb ++ seqs ++ comm ++ strs, qt)

/-- The facts `SQLStructureValidator._validate_statement` extracts from
one parsed statement of the external sqlglot AST: the function names
found, the maximum subquery nesting depth and the complexity score. -/
structure StmtFacts where
  functions : List String
  max_depth : Nat
  complexity : Nat
deriving Repr, DecidableEq

/-- `SQLStructureValidator.forbidden_functions`. -/
def forbiddenFunctions : List String :=
  ["system", "exec", "execute", "xp_cmdshell", "sp_execute",
   "load_file", "into_outfile", "into_dumpfile",
   "user", "current_user", "session_user", "version",
   "database", "schema", "connection_id",
   "kill", "shutdown", "create_user", "drop_user"]

/-- `_validate_statement`. -/
def validateStatement (s : StmtFacts) : List String :=
  (s.functions.filterMap fun f =>
    if f.toLower ∈ forbiddenFunctions then some "Forbidden function" else none)
  ++ (if s.max_depth > 5 then ["Query nesting too deep"] else [])
  ++ (if s.complexity > 100 then ["Query too complex"] else [])

/-- `SQLStructureValidator.validate_structure`: `none` models a raised
parse exception, an empty statement list the falsy `parsed`. -/
def validateStructure (parseres : Option (List StmtFacts)) : List String :=
  match parseres with
  | none => ["Structure validation failed"]
  | some [] => ["Failed to parse query"]
  | some stmts => (stmts.map validateStatement).flatten

/-- The three `SQLValidator` configuration switches. -/
structure ValidatorConfig where
  max_query_length : Nat
  readonly_mode : Bool
  strict_validation : Bool
deriving Repr, DecidableEq

/-- `blocked_risk_levels`: CRITICAL and HIGH, plus MEDIUM under strict
validation. -/
def blockedRisks (cfg : ValidatorConfig) : List Risk :=
  if cfg.strict_validation then [.critical, .high, .medium]
  else [.critical, .high]

/-- The fields of `SQLValidationResult` the claims consult. -/
structure ValidationResult where
  is_valid : Bool
  risk_level : Risk
  query_type : QueryType
  violations : List String
deriving Repr, DecidableEq

/-- Python `str.strip()` on the query (`query.strip()`), character
level. -/
def pyStripWS (s : String) : String :=
  String.mk (((s.data.dropWhile isPySpace).reverse.dropWhile isPySpace).reverse)

/-- The empty-query and length checks at the top of `validate_query`
(the length branch overwrites the risk with MEDIUM, as the source's
plain assignment does). -/
def vqBasic (cfg : ValidatorConfig) (query : String) : List String × Risk :=
  let s1 : List String × Risk :=
    if pyStripWS query = "" then (["Empty query"], Risk.high)
    else ([], Risk.none_)
  if query.length > cfg.max_query_length then
    (s1.1 ++ ["Query too long"], Risk.medium)
  else s1

/-- The pattern-matching block of `validate_query`, run only when no
violation was recorded yet. -/
def vqPatterns (query : String) (s2 : List String × Risk) :
    List String × Risk :=
  if s2.1.isEmpty then
    let pr := analyzePatterns query
    (s2.1 ++ pr.2, maxRisk s2.2 pr.1)
  else s2

/-- The token-analysis block of `validate_query`, run when there are no
violations yet or the current risk is not blocked. -/
def vqTokens (cfg : ValidatorConfig) (tokres : Option (List Token))
    (s3 : List String × Risk) : List String × Risk × QueryType :=
  if s3.1.isEmpty ∨ s3.2 ∉ blockedRisks cfg then
    let tr := analyzeTokens tokres cfg.readonly_mode
    (s3.1 ++ tr.1,
     (if tr.1.isEmpty then s3.2 else maxRisk s3.2 Risk.medium), tr.2)
  else (s3.1, s3.2, QueryType.unknown)

/-- The structure-validation block of `validate_query`, with the same
skip condition. -/
def vqStructure (cfg : ValidatorConfig) (parseres : Option (List StmtFacts))
    (s4 : List String × Risk × QueryType) : List String × Risk × QueryType :=
  if s4.1.isEmpty ∨ s4.2.1 ∉ blockedRisks cfg then
    let sv := validateStructure parseres
    (s4.1 ++ sv,
     (if sv.isEmpty then s4.2.1 else maxRisk s4.2.1 Risk.medium), s4.2.2)
  else s4

/-- `SQLValidator.validate_query`: empty and length checks, then the
pattern, token and structure layers with the source's skip conditions,
and the final blocked-risk decision. -/
def validateQuery (cfg : ValidatorConfig) (query : String)
    (tokres : Option (List Token)) (parseres : Option (List StmtFacts)) :
    ValidationResult :=
  let s4 := vqTokens cfg tokres (vqPatterns query (vqBasic cfg query))
  let s5 := vqStructure cfg parseres s4
  { is_valid := s5.2.1 ∉ blockedRisks cfg
    risk_level := s5.2.1
    query_type := s5.2.2
    violations := s5.1 }

end SQLV

/-! ## Theorems -/

namespace IsoDB

theorem applyIsoOp_original_database (st : IsolatedOps) (op : IsoOp) :
    (applyIsoOp st op).original_database = st.original_database := by
  cases op <;> simp [applyIsoOp]

theorem applyIsoOp_original_schema (st : IsolatedOps) (op : IsoOp) :
    (applyIsoOp st op).original_schema = st.original_schema := by
  cases op <;> simp [applyIsoOp]

theorem applyIsoOp_context_changed (st : IsolatedOps) (op : IsoOp) :
    (applyIsoOp st op).context_changed = true := by
  cases op <;> simp [applyIsoOp]

theorem foldl_original_database (ops : List IsoOp) (st : IsolatedOps) :
    (ops.foldl applyIsoOp st).original_database = st.original_database := by
  induction ops generalizing st with
  | nil => rfl
  | cons o rest ih =>
      simpa [List.foldl, applyIsoOp_original_database] using
        (ih (applyIsoOp st o)).trans (applyIsoOp_original_database st o)

theorem foldl_original_schema (ops : List IsoOp) (st : IsolatedOps) :
    (ops.foldl applyIsoOp st).original_schema = st.original_schema := by
  induction ops generalizing st with
  | nil => rfl
  | cons o rest ih =>
      simpa [List.foldl, applyIsoOp_original_schema] using
        (ih (applyIsoOp st o)).trans (applyIsoOp_original_schema st o)

theorem foldl_context_changed (ops : List IsoOp) (st : IsolatedOps)
    (h : st.context_changed = true) :
    (ops.foldl applyIsoOp st).context_changed = true := by
  induction ops generalizing st with
  | nil => exact h
  | cons o rest ih => exact ih _ (applyIsoOp_context_changed st o)

end IsoDB

/-- C1: an isolated-wrapper scope entered with the connection at
database/schema `(D0, S0)` (both real names, so neither empty nor the
`"Unknown"` placeholder) restores `(D0, S0)` on the connection before
releasing it, for every sequence of `use_database_isolated` /
`use_schema_isolated` calls, including sequences truncated by an
exception; the next acquirer of the surviving connection therefore
observes `(D0, S0)`. -/
theorem C1_isolated_scope_restores_context
    (D0 S0 : String) (ctx : IsoDB.RequestContext) (ops : List IsoDB.IsoOp)
    (hD : D0 ≠ "") (hDu : D0 ≠ "Unknown") (hS : S0 ≠ "") (hSu : S0 ≠ "Unknown") :
    (IsoDB.runScope ⟨some D0, some S0⟩ ctx ops).conn = ⟨some D0, some S0⟩ := by
  classical
  unfold IsoDB.runScope
  set st0 := IsoDB.aenter ⟨some D0, some S0⟩ ctx with hst0
  have horigd : (ops.foldl IsoDB.applyIsoOp st0).original_database = some D0 := by
    rw [IsoDB.foldl_original_database]
    simp [hst0, IsoDB.aenter, IsoDB.orUnknown, hD]
  have horigs : (ops.foldl IsoDB.applyIsoOp st0).original_schema = some S0 := by
    rw [IsoDB.foldl_original_schema]
    simp [hst0, IsoDB.aenter, IsoDB.orUnknown, hS]
  cases ops with
  | nil =>
      simp [IsoDB.aexit, hst0, IsoDB.aenter]
  | cons o rest =>
      have hch : ((o :: rest).foldl IsoDB.applyIsoOp st0).context_changed = true := by
        simpa [List.foldl] using
          IsoDB.foldl_context_changed rest (IsoDB.applyIsoOp st0 o)
            (IsoDB.applyIsoOp_context_changed st0 o)
      set stf := (o :: rest).foldl IsoDB.applyIsoOp st0 with hstf
      have htr : IsoDB.truthy stf.original_database = true := by
        rw [horigd]; simp [IsoDB.truthy, hD]
      unfold IsoDB.aexit
      rw [if_pos ⟨hch, htr⟩]
      unfold IsoDB.restoreOriginalContext
      rw [horigd]
      simp only [hD, hDu]
      rw [horigs]
      simp [hD, hDu, hS, hSu, IsoDB.useDatabase, IsoDB.useSchema]

/-- Witness for C1 at a concrete scope. -/
theorem C1_witness :
    ("ANALYTICS" ≠ "" ∧ "ANALYTICS" ≠ "Unknown" ∧ "PUBLIC" ≠ "" ∧ "PUBLIC" ≠ "Unknown") ∧
    (IsoDB.runScope ⟨some "ANALYTICS", some "PUBLIC"⟩ ⟨none, none, ⟨0, 0, 0, 0⟩⟩
        [.useDatabaseIsolated "DB_A", .useSchemaIsolated "S1"]).conn =
      ⟨some "ANALYTICS", some "PUBLIC"⟩ :=
  ⟨by simp, C1_isolated_scope_restores_context "ANALYTICS" "PUBLIC" _ _
    (by simp) (by simp) (by simp) (by simp)⟩

namespace TxWrap

/-- Strengthened potential: open explicit transactions count as a
pending commit/rollback. -/
def txPotential (st : WrapperState) : Nat :=
  st.metrics.transaction_commits + st.metrics.transaction_rollbacks +
    (if st.tm.in_transaction then 1 else 0)

/-- Doubled potential, for the bound that also covers failing
scope-exit COMMITs (each operation adds at most one commit and one
rollback count). -/
def txPotential2 (st : WrapperState) : Nat :=
  st.metrics.transaction_commits + st.metrics.transaction_rollbacks +
    2 * (if st.tm.in_transaction then 1 else 0)

theorem stepTxOp_invariant (st : WrapperState) (op : TxOp)
    (hinv : txPotential st ≤ st.metrics.transaction_operations)
    (hok : (match op with
            | .commitTransactionOp => st.tm.in_transaction
            | .rollbackTransactionOp => st.tm.in_transaction
            | _ => true) = true)
    (hcf : (match op with
            | .executeWithTransaction ac sf cf => ac || sf || !cf
            | _ => true) = true) :
    txPotential (stepTxOp st op) ≤ (stepTxOp st op).metrics.transaction_operations := by
  cases op with
  | executeWithTransaction ac sf cf =>
      cases ac <;> cases sf <;> cases cf <;>
        simp_all [stepTxOp, txPotential, beginTransaction, commitTm,
          rollbackTm, cleanupTransaction, freshTm, incOps, incCommits,
          incRollbacks]
      all_goals omega
  | beginExplicitTransaction =>
      by_cases h : st.tm.in_transaction <;>
        simp_all [stepTxOp, txPotential, beginTransaction, incOps]
      all_goals omega
  | commitTransactionOp =>
      have hin : st.tm.in_transaction = true := hok
      simp_all [stepTxOp, txPotential, commitTm, cleanupTransaction,
        freshTm, incCommits]
      omega
  | rollbackTransactionOp =>
      have hin : st.tm.in_transaction = true := hok
      simp_all [stepTxOp, txPotential, rollbackTm, cleanupTransaction,
        freshTm, incRollbacks]
      omega

theorem stepTxOp_invariant2 (st : WrapperState) (op : TxOp)
    (hinv : txPotential2 st ≤ 2 * st.metrics.transaction_operations)
    (hok : (match op with
            | .commitTransactionOp => st.tm.in_transaction
            | .rollbackTransactionOp => st.tm.in_transaction
            | _ => true) = true) :
    txPotential2 (stepTxOp st op) ≤
      2 * (stepTxOp st op).metrics.transaction_operations := by
  cases op with
  | executeWithTransaction ac sf cf =>
      cases ac <;> cases sf <;> cases cf <;>
        simp_all [stepTxOp, txPotential2, beginTransaction, commitTm,
          rollbackTm, cleanupTransaction, freshTm, incOps, incCommits,
          incRollbacks]
      all_goals omega
  | beginExplicitTransaction =>
      by_cases h : st.tm.in_transaction <;>
        simp_all [stepTxOp, txPotential2, beginTransaction, incOps]
      all_goals omega
  | commitTransactionOp =>
      have hin : st.tm.in_transaction = true := hok
      simp_all [stepTxOp, txPotential2, commitTm, cleanupTransaction,
        freshTm, incCommits]
      omega
  | rollbackTransactionOp =>
      have hin : st.tm.in_transaction = true := hok
      simp_all [stepTxOp, txPotential2, rollbackTm, cleanupTransaction,
        freshTm, incRollbacks]
      omega

theorem runTxOps_invariant (ops : List TxOp) (st : WrapperState)
    (hinv : txPotential st ≤ st.metrics.transaction_operations)
    (hws : wellScoped st ops = true)
    (hcf : noCommitFailure ops = true) :
    txPotential (runTxOps st ops) ≤ (runTxOps st ops).metrics.transaction_operations := by
  induction ops generalizing st with
  | nil => exact hinv
  | cons op rest ih =>
      cases op with
      | executeWithTransaction ac sf cf =>
          simp only [wellScoped, Bool.true_and] at hws
          simp only [noCommitFailure, Bool.and_eq_true] at hcf
          exact ih _ (stepTxOp_invariant st _ hinv rfl hcf.1) hws hcf.2
      | beginExplicitTransaction =>
          simp only [wellScoped, Bool.true_and] at hws
          simp only [noCommitFailure, Bool.true_and] at hcf
          exact ih _ (stepTxOp_invariant st _ hinv rfl rfl) hws hcf
      | commitTransactionOp =>
          simp only [wellScoped, Bool.and_eq_true] at hws
          simp only [noCommitFailure, Bool.true_and] at hcf
          exact ih _ (stepTxOp_invariant st _ hinv hws.1 rfl) hws.2 hcf
      | rollbackTransactionOp =>
          simp only [wellScoped, Bool.and_eq_true] at hws
          simp only [noCommitFailure, Bool.true_and] at hcf
          exact ih _ (stepTxOp_invariant st _ hinv hws.1 rfl) hws.2 hcf

theorem runTxOps_invariant2 (ops : List TxOp) (st : WrapperState)
    (hinv : txPotential2 st ≤ 2 * st.metrics.transaction_operations)
    (hws : wellScoped st ops = true) :
    txPotential2 (runTxOps st ops) ≤
      2 * (runTxOps st ops).metrics.transaction_operations := by
  induction ops generalizing st with
  | nil => exact hinv
  | cons op rest ih =>
      cases op with
      | executeWithTransaction ac sf cf =>
          simp only [wellScoped, Bool.true_and] at hws
          exact ih _ (stepTxOp_invariant2 st _ hinv rfl) hws
      | beginExplicitTransaction =>
          simp only [wellScoped, Bool.true_and] at hws
          exact ih _ (stepTxOp_invariant2 st _ hinv rfl) hws
      | commitTransactionOp =>
          simp only [wellScoped, Bool.and_eq_true] at hws
          exact ih _ (stepTxOp_invariant2 st _ hinv hws.1) hws.2
      | rollbackTransactionOp =>
          simp only [wellScoped, Bool.and_eq_true] at hws
          exact ih _ (stepTxOp_invariant2 st _ hinv hws.1) hws.2

end TxWrap

/-- C8 counterexample: a handler may call `commit_transaction` on the
transactional wrapper without an open explicit transaction; the source
increments the request context's commit counter even though the
transaction manager performed nothing, giving
`transaction_commits = 1 > transaction_operations = 0`, so the claimed
invariant `commits + rollbacks ≤ operations` fails. -/
theorem C8_counterexample :
    ¬ ((TxWrap.runTxOps (TxWrap.initWrapper true) [.commitTransactionOp]).metrics.transaction_commits +
        (TxWrap.runTxOps (TxWrap.initWrapper true) [.commitTransactionOp]).metrics.transaction_rollbacks ≤
        (TxWrap.runTxOps (TxWrap.initWrapper true) [.commitTransactionOp]).metrics.transaction_operations) := by
  decide

/-- C8 amended: for call sequences in which each explicit
commit/rollback is issued while the wrapper's explicit transaction is
open and no scope-exit COMMIT of `execute_with_transaction
(auto_commit=false)` raises, the request context satisfies
`transaction_commits + transaction_rollbacks ≤ transaction_operations`
throughout the scope.  Two code paths break the plain inequality: an
explicit commit/rollback with no open transaction is a session no-op
that still increments its counter, and a failing scope-exit COMMIT
increments both counters for its single operation — the commit counter
is bumped before the COMMIT is issued and the wrapper's except clause
then bumps the rollback counter, yielding operations 1, commits 1,
rollbacks 1.  Well-scoped sequences in general satisfy only
`commits + rollbacks ≤ 2 · operations`. -/
theorem C8_tx_counter_invariant (ac : Bool) (ops : List TxWrap.TxOp) :
    (TxWrap.wellScoped (TxWrap.initWrapper ac) ops = true →
      TxWrap.noCommitFailure ops = true →
      (TxWrap.runTxOps (TxWrap.initWrapper ac) ops).metrics.transaction_commits +
        (TxWrap.runTxOps (TxWrap.initWrapper ac) ops).metrics.transaction_rollbacks ≤
        (TxWrap.runTxOps (TxWrap.initWrapper ac) ops).metrics.transaction_operations) ∧
    (TxWrap.wellScoped (TxWrap.initWrapper ac) ops = true →
      (TxWrap.runTxOps (TxWrap.initWrapper ac) ops).metrics.transaction_commits +
        (TxWrap.runTxOps (TxWrap.initWrapper ac) ops).metrics.transaction_rollbacks ≤
        2 * (TxWrap.runTxOps (TxWrap.initWrapper ac) ops).metrics.transaction_operations) ∧
    ((TxWrap.runTxOps (TxWrap.initWrapper true)
        [.executeWithTransaction false false true]).metrics.transaction_operations = 1 ∧
      (TxWrap.runTxOps (TxWrap.initWrapper true)
        [.executeWithTransaction false false true]).metrics.transaction_commits = 1 ∧
      (TxWrap.runTxOps (TxWrap.initWrapper true)
        [.executeWithTransaction false false true]).metrics.transaction_rollbacks = 1) := by
  refine ⟨?_, ?_, by decide⟩
  · intro hws hcf
    have h := TxWrap.runTxOps_invariant ops (TxWrap.initWrapper ac)
      (by simp [TxWrap.txPotential, TxWrap.initWrapper, TxWrap.freshTm]) hws hcf
    unfold TxWrap.txPotential at h
    omega
  · intro hws
    have h := TxWrap.runTxOps_invariant2 ops (TxWrap.initWrapper ac)
      (by simp [TxWrap.txPotential2, TxWrap.initWrapper, TxWrap.freshTm]) hws
    unfold TxWrap.txPotential2 at h
    omega

/-- Witness for C8 at a concrete well-scoped call sequence without a
failing scope-exit COMMIT. -/
theorem C8_witness :
    TxWrap.wellScoped (TxWrap.initWrapper true)
        [.executeWithTransaction false false false, .beginExplicitTransaction,
         .commitTransactionOp, .beginExplicitTransaction,
         .rollbackTransactionOp] = true ∧
    TxWrap.noCommitFailure
        [.executeWithTransaction false false false, .beginExplicitTransaction,
         .commitTransactionOp, .beginExplicitTransaction,
         .rollbackTransactionOp] = true ∧
    (TxWrap.runTxOps (TxWrap.initWrapper true)
        [.executeWithTransaction false false false, .beginExplicitTransaction,
         .commitTransactionOp, .beginExplicitTransaction,
         .rollbackTransactionOp]).metrics.transaction_commits +
      (TxWrap.runTxOps (TxWrap.initWrapper true)
        [.executeWithTransaction false false false, .beginExplicitTransaction,
         .commitTransactionOp, .beginExplicitTransaction,
         .rollbackTransactionOp]).metrics.transaction_rollbacks ≤
      (TxWrap.runTxOps (TxWrap.initWrapper true)
        [.executeWithTransaction false false false, .beginExplicitTransaction,
         .commitTransactionOp, .beginExplicitTransaction,
         .rollbackTransactionOp]).metrics.transaction_operations :=
  ⟨by decide, by decide,
   (C8_tx_counter_invariant true
       [.executeWithTransaction false false false, .beginExplicitTransaction,
        .commitTransactionOp, .beginExplicitTransaction,
        .rollbackTransactionOp]).1 (by decide) (by decide)⟩

namespace AsyncPool

theorem findAvailable_spec :
    ∀ (l : List ConnMeta) (i : Nat), findAvailable l = some i →
      (∃ c, l.get? i = some c ∧ c.in_use = false ∧ c.is_healthy = true) ∧
      ∀ j, j < i → ∃ c, l.get? j = some c ∧
        (c.in_use = true ∨ c.is_healthy = false) := by
  intro l
  induction l with
  | nil => intro i h; simp [findAvailable] at h
  | cons c rest ih =>
      intro i h
      unfold findAvailable at h
      by_cases hc : ¬c.in_use ∧ c.is_healthy
      · rw [if_pos hc] at h
        have hi : i = 0 := (Option.some.inj h).symm
        subst hi
        exact ⟨⟨c, rfl, by simpa using hc.1, hc.2⟩,
          fun j hj => absurd hj (Nat.not_lt_zero j)⟩
      · rw [if_neg hc] at h
        obtain ⟨j, hj, hji⟩ := Option.map_eq_some'.mp h
        subst hji
        obtain ⟨⟨c1, hc1, hu, hh⟩, hmin⟩ := ih j hj
        refine ⟨⟨c1, by simpa using hc1, hu, hh⟩, ?_⟩
        intro k hk
        cases k with
        | zero =>
            refine ⟨c, rfl, ?_⟩
            by_cases hu2 : c.in_use
            · exact Or.inl hu2
            · right
              by_cases hh2 : c.is_healthy
              · exact absurd ⟨by simpa using hu2, hh2⟩ hc
              · simpa using hh2
        | succ k =>
            obtain ⟨ck, hck, hbad⟩ := hmin k (by omega)
            exact ⟨ck, by simpa using hck, hbad⟩

theorem waitPoll_none_prefix (pre post : List (List ConnMeta))
    (h : ∀ s ∈ pre, findAvailable s = none) :
    waitPoll (pre ++ post) = waitPoll post := by
  induction pre with
  | nil => rfl
  | cons s rest ih =>
      have hs : findAvailable s = none := h s (by simp)
      simp only [List.cons_append, waitPoll, hs]
      exact ih (fun t ht => h t (by simp [ht]))

theorem waitPoll_all_none (trace : List (List ConnMeta))
    (h : ∀ s ∈ trace, findAvailable s = none) :
    waitPoll trace = .stillWaiting := by
  simpa using waitPoll_none_prefix trace [] h

end AsyncPool

/-- C2 counterexample: a pool at `max_size = 2` with both connections
in use.  The default `connection_timeout` is 30 s and the polling loop
sleeps 0.1 s per iteration, so 301 all-busy snapshots model more than
the configured timeout elapsing; the acquisition is still waiting and
no `PoolExhausted` (or any other timeout) error is raised — indeed no
such outcome exists anywhere in `_get_connection`, refuting the claim
that `acquire` fails with a retryable `PoolExhausted` after
`acquire_timeout`. -/
theorem C2_counterexample :
    AsyncPool.acquire ⟨[⟨true, true⟩, ⟨true, true⟩], 2, false⟩
        (List.replicate 301 [⟨true, true⟩, ⟨true, true⟩]) =
      .stillWaiting := by
  decide

/-- C2 amended: `acquire` on an open pool returns the first available
healthy connection when one exists; otherwise creates a new connection
while the pool is below `max_size`; otherwise polls cooperatively every
0.1 s and returns the first connection that becomes available, waiting
indefinitely — it never times out and never raises a `PoolExhausted`
error (a closed pool raises `RuntimeError`). -/
theorem C2_pool_acquire (st : AsyncPool.PoolState)
    (trace : List (List AsyncPool.ConnMeta)) (hopen : st.closed = false) :
    (∀ i, AsyncPool.findAvailable st.connections = some i →
        AsyncPool.acquire st trace = .reuse i ∧
        (∃ c, st.connections.get? i = some c ∧ c.in_use = false ∧
          c.is_healthy = true) ∧
        (∀ j, j < i → ∃ c, st.connections.get? j = some c ∧
          (c.in_use = true ∨ c.is_healthy = false))) ∧
    (AsyncPool.findAvailable st.connections = none →
      st.connections.length < st.max_size →
        AsyncPool.acquire st trace = .createNew) ∧
    (AsyncPool.findAvailable st.connections = none →
      ¬ st.connections.length < st.max_size →
        (∀ s ∈ trace, AsyncPool.findAvailable s = none) →
        AsyncPool.acquire st trace = .stillWaiting) ∧
    (AsyncPool.findAvailable st.connections = none →
      ¬ st.connections.length < st.max_size →
        ∀ pre snap post, trace = pre ++ snap :: post →
          (∀ s ∈ pre, AsyncPool.findAvailable s = none) →
          ∀ j, AsyncPool.findAvailable snap = some j →
            AsyncPool.acquire st trace = .waitedFor j) := by
  refine ⟨?_, ?_, ?_, ?_⟩
  · intro i hi
    refine ⟨?_, (AsyncPool.findAvailable_spec st.connections i hi).1,
      (AsyncPool.findAvailable_spec st.connections i hi).2⟩
    simp [AsyncPool.acquire, hopen, hi]
  · intro hn hlt
    simp [AsyncPool.acquire, hopen, hn, hlt]
  · intro hn hge hb
    simp [AsyncPool.acquire, hopen, hn, hge,
      AsyncPool.waitPoll_all_none trace hb]
  · intro hn hge pre snap post htr hb j hj
    subst htr
    simp [AsyncPool.acquire, hopen, hn, hge,
      AsyncPool.waitPoll_none_prefix pre (snap :: post) hb,
      AsyncPool.waitPoll, hj]

/-- Witness for C2 at concrete pool states: a free healthy connection
is reused, and a saturated pool with a release after two polls hands
out that connection. -/
theorem C2_witness :
    ((⟨[⟨true, true⟩, ⟨false, true⟩], 2, false⟩ : AsyncPool.PoolState).closed = false ∧
      AsyncPool.findAvailable [⟨true, true⟩, ⟨false, true⟩] = some 1 ∧
      AsyncPool.acquire ⟨[⟨true, true⟩, ⟨false, true⟩], 2, false⟩ [] = .reuse 1) ∧
    ((⟨[⟨true, true⟩], 1, false⟩ : AsyncPool.PoolState).closed = false ∧
      AsyncPool.acquire ⟨[⟨true, true⟩], 1, false⟩
        [[⟨true, true⟩], [⟨false, true⟩]] = .waitedFor 0) :=
  ⟨⟨rfl, by decide,
     ((C2_pool_acquire ⟨[⟨true, true⟩, ⟨false, true⟩], 2, false⟩ [] rfl).1 1
       (by decide)).1⟩,
   ⟨rfl,
     (C2_pool_acquire ⟨[⟨true, true⟩], 1, false⟩ [[⟨true, true⟩], [⟨false, true⟩]]
         rfl).2.2.2 (by decide) (by decide) [[⟨true, true⟩]] [⟨false, true⟩] []
       rfl (by decide) 0 (by decide)⟩⟩

/-- C3: while the breaker is open and less than the effective recovery
timeout has elapsed since the state change, every call is rejected
immediately with the circuit-open error (the wrapped function is not
invoked and the state is untouched); once at least the effective
recovery timeout has elapsed, the gate admits the call and the breaker
transitions to half-open; and any failure recorded in half-open
returns the breaker to open. -/
theorem C3_circuit_breaker_open_gate (cfg : Breaker.CBConfig)
    (st : Breaker.CBState) (now : ℚ) (ok : Bool) :
    (st.state = .open_ →
      now - st.state_changed_at < Breaker.getRecoveryTimeout cfg st →
      Breaker.call cfg st now ok =
        (.rejected (Breaker.getRetryAfter cfg st now), st)) ∧
    (st.state = .open_ →
      now - st.state_changed_at ≥ Breaker.getRecoveryTimeout cfg st →
      (Breaker.canExecute cfg st now).1 = true ∧
      (Breaker.canExecute cfg st now).2.state = .half_open) ∧
    (st.state = .half_open →
      (Breaker.onFailure cfg st now).state = .open_) := by
  refine ⟨?_, ?_, ?_⟩
  · intro hs hlt
    simp [Breaker.call, Breaker.canExecute, hs, not_le.mpr hlt]
  · intro hs hge
    constructor
    · simp [Breaker.canExecute, hs, hge]
    · simp [Breaker.canExecute, hs, hge, Breaker.toHalfOpen]
  · intro hs
    simp [Breaker.onFailure, hs, Breaker.toOpen]

/-- Witness for C3 at a concrete breaker: thresholds 5/3, recovery 60 s
without exponential growth; opened at t = 0. -/
theorem C3_witness :
    ((⟨.open_, 0, 5, 0, 0, 1, []⟩ : Breaker.CBState).state = .open_ ∧
      (10 : ℚ) - 0 < Breaker.getRecoveryTimeout ⟨5, 60, 3, 60, false, 300, 5⟩
        ⟨.open_, 0, 5, 0, 0, 1, []⟩ ∧
      Breaker.call ⟨5, 60, 3, 60, false, 300, 5⟩ ⟨.open_, 0, 5, 0, 0, 1, []⟩ 10 true =
        (.rejected (Breaker.getRetryAfter ⟨5, 60, 3, 60, false, 300, 5⟩
          ⟨.open_, 0, 5, 0, 0, 1, []⟩ 10), ⟨.open_, 0, 5, 0, 0, 1, []⟩)) ∧
    ((61 : ℚ) - 0 ≥ Breaker.getRecoveryTimeout ⟨5, 60, 3, 60, false, 300, 5⟩
        ⟨.open_, 0, 5, 0, 0, 1, []⟩ ∧
      (Breaker.canExecute ⟨5, 60, 3, 60, false, 300, 5⟩
        ⟨.open_, 0, 5, 0, 0, 1, []⟩ 61).2.state = .half_open) ∧
    ((⟨.half_open, 61, 0, 0, 1, 2, []⟩ : Breaker.CBState).state = .half_open ∧
      (Breaker.onFailure ⟨5, 60, 3, 60, false, 300, 5⟩
        ⟨.half_open, 61, 0, 0, 1, 2, []⟩ 62).state = .open_) :=
  ⟨⟨rfl, by norm_num [Breaker.getRecoveryTimeout],
     (C3_circuit_breaker_open_gate ⟨5, 60, 3, 60, false, 300, 5⟩
       ⟨.open_, 0, 5, 0, 0, 1, []⟩ 10 true).1 rfl
       (by norm_num [Breaker.getRecoveryTimeout])⟩,
   ⟨by norm_num [Breaker.getRecoveryTimeout],
     ((C3_circuit_breaker_open_gate ⟨5, 60, 3, 60, false, 300, 5⟩
       ⟨.open_, 0, 5, 0, 0, 1, []⟩ 61 true).2.1 rfl
       (by norm_num [Breaker.getRecoveryTimeout])).2⟩,
   ⟨rfl,
     (C3_circuit_breaker_open_gate ⟨5, 60, 3, 60, false, 300, 5⟩
       ⟨.half_open, 61, 0, 0, 1, 2, []⟩ 62 true).2.2 rfl⟩⟩

namespace RateLimit

theorem successCount_cons (r : Bool × ℚ) (rs : List (Bool × ℚ)) :
    successCount (r :: rs) =
      (if r.1 = true then 1 else 0) + successCount rs := by
  by_cases h : r.1 = true <;>
    simp [successCount, List.filter, h, Nat.add_comm]

/-- Invariant bound for a run of single-token consumes whose call times
lie in `[s, s + T]`: from a state with `tokens ≤ capacity`, at most
`capacity` tokens can ever be drawn beyond what the refills add, and
the refills during the interval total at most `T · rate`. -/
theorem consumeRun_bound (s T : ℚ) :
    ∀ (ts : List ℚ) (b : Bucket),
      (∀ t ∈ ts, s ≤ t ∧ t ≤ s + T) →
      0 ≤ b.refill_rate → 0 ≤ b.tokens → b.tokens ≤ b.capacity →
      0 ≤ T → b.last_refill ≤ s + T →
      (successCount (consumeRun b ts).1 : ℚ) ≤
        (if b.last_refill < s then b.capacity + T * b.refill_rate
         else b.tokens + ((s + T) - b.last_refill) * b.refill_rate) := by
  intro ts
  induction ts with
  | nil =>
      intro b _ hrate ht0 htc hT hlr
      have hcap : (0 : ℚ) ≤ b.capacity := le_trans ht0 htc
      by_cases h : b.last_refill < s
      · rw [if_pos h]
        simp only [consumeRun, successCount, List.filter, List.length_nil,
          Nat.cast_zero]
        positivity
      · rw [if_neg h]
        simp only [consumeRun, successCount, List.filter, List.length_nil,
          Nat.cast_zero]
        have h1 : 0 ≤ ((s + T) - b.last_refill) * b.refill_rate :=
          mul_nonneg (by linarith) hrate
        linarith
  | cons t ts ih =>
      intro b hts hrate ht0 htc hT hlr
      have hcap : (0 : ℚ) ≤ b.capacity := le_trans ht0 htc
      obtain ⟨hst, hte⟩ := hts t (by simp)
      have hts2 : ∀ u ∈ ts, s ≤ u ∧ u ≤ s + T :=
        fun u hu => hts u (by simp [hu])
      rw [consumeRun]
      by_cases helap : t - b.last_refill > 0
      · -- a refill happens at this call
        set tokNew : ℚ :=
          min b.capacity (b.tokens + (t - b.last_refill) * b.refill_rate)
          with htokNew
        have hb1 : refill b t =
            { b with tokens := tokNew, last_refill := t } := by
          simp [refill, helap, htokNew]
        have htokc : tokNew ≤ b.capacity := min_le_left _ _
        have htokup : tokNew ≤ b.tokens + (t - b.last_refill) * b.refill_rate :=
          min_le_right _ _
        have htok0 : 0 ≤ tokNew := by
          refine le_min hcap ?_
          have h1 : 0 ≤ (t - b.last_refill) * b.refill_rate :=
            mul_nonneg (by linarith) hrate
          linarith
        have hsum : (t - b.last_refill) * b.refill_rate +
            ((s + T) - t) * b.refill_rate =
            ((s + T) - b.last_refill) * b.refill_rate := by ring
        have hTcap : ((s + T) - t) * b.refill_rate ≤ T * b.refill_rate :=
          mul_le_mul_of_nonneg_right (by linarith) hrate
        by_cases hsucc : (1 : ℚ) ≤ tokNew
        · simp only [consume, hb1, ge_iff_le, if_pos hsucc]
          have ih2 := ih { b with tokens := tokNew - 1, last_refill := t }
            hts2 hrate (by simp; linarith) (by simp; linarith) hT (by simpa using hte)
          rw [if_neg (by simpa using not_lt.mpr hst)] at ih2
          simp only at ih2
          rw [successCount_cons]
          push_cast
          rw [if_pos (rfl : true = true)]
          by_cases hcase : b.last_refill < s
          · rw [if_pos hcase]
            linarith
          · rw [if_neg hcase]
            linarith
        · simp only [consume, hb1, ge_iff_le, if_neg hsucc]
          have ih2 := ih { b with tokens := tokNew, last_refill := t }
            hts2 hrate (by simpa using htok0) (by simpa using htokc) hT
            (by simpa using hte)
          rw [if_neg (by simpa using not_lt.mpr hst)] at ih2
          simp only at ih2
          rw [successCount_cons]
          push_cast
          by_cases hcase : b.last_refill < s
          · rw [if_pos hcase]
            linarith
          · rw [if_neg hcase]
            linarith
      · -- no refill: `t ≤ last_refill`, so `s ≤ last_refill`
        have hb1 : refill b t = b := by simp [refill, helap]
        have hges : s ≤ b.last_refill := by
          have h1 : t ≤ b.last_refill := by linarith [not_lt.mp helap]
          linarith
        rw [if_neg (not_lt.mpr hges)]
        by_cases hsucc : (1 : ℚ) ≤ b.tokens
        · simp only [consume, hb1, ge_iff_le, if_pos hsucc]
          have ih2 := ih { b with tokens := b.tokens - 1 }
            hts2 hrate (by simp; linarith) (by simp; linarith) hT
            (by simpa using hlr)
          rw [if_neg (by simpa using not_lt.mpr hges)] at ih2
          simp only at ih2
          rw [successCount_cons]
          push_cast
          rw [if_pos (rfl : true = true)]
          linarith
        · simp only [consume, hb1, ge_iff_le, if_neg hsucc]
          have ih2 := ih b hts2 hrate ht0 htc hT hlr
          rw [if_neg (not_lt.mpr hges)] at ih2
          rw [successCount_cons]
          push_cast
          linarith

end RateLimit

/-- C4 counterexample: the default client bucket (limit 10/s, burst 5)
starts with `capacity = 15` tokens.  Fifteen consumes at `t = 0` all
succeed, and the 16th call at `t = 0.4` also succeeds — 4 tokens were
refilled — rather than failing with `RateLimitError` and
`retry_after ≈ 0.6` as the claim states; moreover those 16 successes
fall in an interval of length `T = 0.4`, exceeding the claimed bound
`⌈T · rate⌉ + burst = 9`. -/
theorem C4_counterexample :
    ((RateLimit.consumeRun (RateLimit.mkBucket 15 10 0)
        (List.replicate 15 0)).1 = List.replicate 15 (true, 0)) ∧
    ((RateLimit.consume
        (RateLimit.consumeRun (RateLimit.mkBucket 15 10 0)
          (List.replicate 15 0)).2 (2/5) 1).1 = (true, 0)) ∧
    ¬ ((15 + 1 : ℤ) ≤ ⌈(2/5 : ℚ) * 10⌉ + 5) := by
  refine ⟨?_, ?_, ?_⟩
  · norm_num [RateLimit.consumeRun, RateLimit.consume, RateLimit.refill,
      RateLimit.mkBucket, List.replicate, min_def]
  · norm_num [RateLimit.consumeRun, RateLimit.consume, RateLimit.refill,
      RateLimit.mkBucket, List.replicate, min_def]
  · norm_num

/-- C4 amended: for a token bucket built as `_init_limiters` does
(`capacity = limit + burst`, `refill_rate = limit / window`), the
number of successful single-token consumes over any interval of length
`T` is at most `(limit + burst) + T · (limit / window)` — the bucket
holds at most `capacity = limit + burst` tokens at the interval start
and refills add at most `T · rate` — not `⌈T · rate⌉ + burst`. -/
theorem C4_token_bucket_bound (limit burst window s T : ℚ)
    (b : RateLimit.Bucket) (ts : List ℚ)
    (hcap : b.capacity = limit + burst)
    (hrate : b.refill_rate = limit / window)
    (hratenn : 0 ≤ limit / window)
    (hts : ∀ t ∈ ts, s ≤ t ∧ t ≤ s + T)
    (ht0 : 0 ≤ b.tokens) (htc : b.tokens ≤ b.capacity)
    (hT : 0 ≤ T) (hlr : b.last_refill ≤ s) :
    (RateLimit.successCount (RateLimit.consumeRun b ts).1 : ℚ) ≤
      (limit + burst) + T * (limit / window) := by
  have hrate2 : 0 ≤ b.refill_rate := hrate ▸ hratenn
  have hbound := RateLimit.consumeRun_bound s T ts b hts hrate2 ht0 htc hT
    (le_trans hlr (by linarith))
  by_cases hcase : b.last_refill < s
  · rw [if_pos hcase] at hbound
    rw [hcap, hrate] at hbound
    exact hbound
  · rw [if_neg hcase] at hbound
    have hlr2 : b.last_refill = s := le_antisymm hlr (not_lt.mp hcase)
    rw [hlr2] at hbound
    have h2 : ((s + T) - s) * b.refill_rate = T * b.refill_rate := by ring
    rw [h2, hrate] at hbound
    have htc2 : b.tokens ≤ limit + burst := hcap ▸ htc
    linarith

/-- Witness for C4 at the default client bucket over a one-second
interval. -/
theorem C4_witness :
    ((RateLimit.mkBucket 15 10 0).capacity = (10 : ℚ) + 5 ∧
      (RateLimit.mkBucket 15 10 0).refill_rate = (10 : ℚ) / 1 ∧
      (0 : ℚ) ≤ 10 / 1 ∧
      (∀ t ∈ [(0 : ℚ), 1/2], (0 : ℚ) ≤ t ∧ t ≤ 0 + 1) ∧
      (0 : ℚ) ≤ (RateLimit.mkBucket 15 10 0).tokens ∧
      (RateLimit.mkBucket 15 10 0).tokens ≤ (RateLimit.mkBucket 15 10 0).capacity ∧
      (0 : ℚ) ≤ 1 ∧ (RateLimit.mkBucket 15 10 0).last_refill ≤ 0) ∧
    (RateLimit.successCount
        (RateLimit.consumeRun (RateLimit.mkBucket 15 10 0) [0, 1/2]).1 : ℚ) ≤
      ((10 : ℚ) + 5) + 1 * (10 / 1) :=
  ⟨⟨by norm_num [RateLimit.mkBucket], by norm_num [RateLimit.mkBucket],
    by norm_num, by intro t ht; fin_cases ht <;> norm_num,
    by norm_num [RateLimit.mkBucket],
    by norm_num [RateLimit.mkBucket], by norm_num,
    by norm_num [RateLimit.mkBucket]⟩,
   C4_token_bucket_bound 10 5 1 0 1 (RateLimit.mkBucket 15 10 0) [0, 1/2]
     (by norm_num [RateLimit.mkBucket]) (by norm_num [RateLimit.mkBucket])
     (by norm_num) (by intro t ht; fin_cases ht <;> norm_num)
     (by norm_num [RateLimit.mkBucket]) (by norm_num [RateLimit.mkBucket])
     (by norm_num) (by norm_num [RateLimit.mkBucket])⟩

/-- C5: immediately after a reset (any later instant in the same quota
period, so no further automatic reset fires), `current_usage = 0` and
`warning_triggered = false`; consuming any amount `k` with
`k ≤ effective_limit` succeeds, where `effective_limit = base limit +
rollover balance + (burst allowance − burst used)` and the reset left
`burst_used = 0`; and consuming `effective_limit + 1` raises
`QuotaExceeded` carrying the next reset time. -/
theorem C5_quota_reset_then_consume (lim : Quota.QuotaLimit)
    (u0 : Quota.QuotaUsage) (now0 now : Quota.DT) (force : Bool)
    (hnr : Quota.resetNeeded lim (Quota.resetQuota lim u0 now0 force) now = false) :
    (Quota.resetQuota lim u0 now0 force).current_usage = 0 ∧
    (Quota.resetQuota lim u0 now0 force).warning_triggered = false ∧
    (∀ k : Int,
      k ≤ lim.limit + (Quota.resetQuota lim u0 now0 force).rollover_balance +
        lim.burst_allowance →
      ∃ u1, Quota.consumeQuota lim (Quota.resetQuota lim u0 now0 force) now k =
        .ok u1) ∧
    (∃ u1, Quota.consumeQuota lim (Quota.resetQuota lim u0 now0 force) now
        (lim.limit + (Quota.resetQuota lim u0 now0 force).rollover_balance +
          lim.burst_allowance + 1) =
      .exceeded
        ⟨0, lim.limit + (Quota.resetQuota lim u0 now0 force).rollover_balance +
          lim.burst_allowance, Quota.nextResetTime lim now⟩ u1) := by
  set u := Quota.resetQuota lim u0 now0 force with hu
  have hcu : u.current_usage = 0 := by simp [hu, Quota.resetQuota]
  have hbu : u.burst_used = 0 := by simp [hu, Quota.resetQuota]
  have hwt : u.warning_triggered = false := by simp [hu, Quota.resetQuota]
  have hcheck : Quota.checkResetNeeded lim u now = u := by
    simp [Quota.checkResetNeeded, hnr]
  refine ⟨hcu, hwt, ?_, ?_⟩
  · intro k hk
    unfold Quota.consumeQuota
    rw [hcheck]
    rw [if_pos (show u.current_usage + k ≤
        lim.limit + u.rollover_balance + (lim.burst_allowance - u.burst_used) by
      rw [hcu, hbu]; omega)]
    exact ⟨_, rfl⟩
  · unfold Quota.consumeQuota
    rw [hcheck]
    rw [if_neg (show ¬ (u.current_usage +
        (lim.limit + u.rollover_balance + lim.burst_allowance + 1) ≤
        lim.limit + u.rollover_balance + (lim.burst_allowance - u.burst_used)) by
      rw [hcu, hbu]; omega)]
    refine ⟨{ u with limit_exceeded := true }, ?_⟩
    simp [hcu, hbu]

/-- Witness for C5 with an hourly quota (limit 100, burst 20, no
rollover) reset at 09:00 and consumed at 09:05 the same day. -/
theorem C5_witness :
    Quota.resetNeeded ⟨100, .hourly, 80, none, false, 20⟩
      (Quota.resetQuota ⟨100, .hourly, 80, none, false, 20⟩
        ⟨50, 50, ⟨2026, 10, 12, 8, 0, 0⟩, true, false, 5, 7, []⟩
        ⟨2026, 10, 12, 9, 0, 0⟩ false)
      ⟨2026, 10, 12, 9, 5, 0⟩ = false ∧
    (120 : Int) ≤ (100 : Int) +
      (Quota.resetQuota ⟨100, .hourly, 80, none, false, 20⟩
        ⟨50, 50, ⟨2026, 10, 12, 8, 0, 0⟩, true, false, 5, 7, []⟩
        ⟨2026, 10, 12, 9, 0, 0⟩ false).rollover_balance + 20 ∧
    (∃ u1, Quota.consumeQuota ⟨100, .hourly, 80, none, false, 20⟩
        (Quota.resetQuota ⟨100, .hourly, 80, none, false, 20⟩
          ⟨50, 50, ⟨2026, 10, 12, 8, 0, 0⟩, true, false, 5, 7, []⟩
          ⟨2026, 10, 12, 9, 0, 0⟩ false)
        ⟨2026, 10, 12, 9, 5, 0⟩ 120 = .ok u1) :=
  ⟨by decide, by decide,
   (C5_quota_reset_then_consume ⟨100, .hourly, 80, none, false, 20⟩
      ⟨50, 50, ⟨2026, 10, 12, 8, 0, 0⟩, true, false, 5, 7, []⟩
      ⟨2026, 10, 12, 9, 0, 0⟩ ⟨2026, 10, 12, 9, 5, 0⟩ false
      (by decide)).2.2.1 120 (by decide)⟩

/-- C6 counterexample: a daily quota with limit 100, rollover allowed,
and 80 units consumed.  One reset computes
`rollover = min(100 − 80, 100 // 2) = 20`; resetting again in the
same period recomputes the rollover from the zeroed usage and gets
`min(100, 50) = 50`, so two resets do not produce the same post-state
as one reset. -/
theorem C6_counterexample :
    (Quota.resetQuota ⟨100, .daily, 80, none, true, 0⟩
      ⟨80, 80, ⟨2026, 10, 11, 23, 0, 0⟩, true, false, 0, 0, []⟩
      ⟨2026, 10, 12, 9, 0, 0⟩ false).rollover_balance = 20 ∧
    (Quota.resetQuota ⟨100, .daily, 80, none, true, 0⟩
      (Quota.resetQuota ⟨100, .daily, 80, none, true, 0⟩
        ⟨80, 80, ⟨2026, 10, 11, 23, 0, 0⟩, true, false, 0, 0, []⟩
        ⟨2026, 10, 12, 9, 0, 0⟩ false)
      ⟨2026, 10, 12, 9, 0, 0⟩ false).rollover_balance = 50 := by
  constructor <;> decide

/-- C6 amended: quota reset is idempotent exactly when no rollover is
recomputed: without `rollover_allowed` a second reset reproduces the
first reset's state; with rollover allowed, the second reset reads the
zeroed usage and sets `rollover_balance = limit // 2`, so two resets
agree with one only when the first rollover already equalled
`limit // 2` (all other counters and flags do coincide). -/
theorem C6_quota_reset_idempotency (lim : Quota.QuotaLimit)
    (u : Quota.QuotaUsage) (now : Quota.DT) :
    (lim.rollover_allowed = false →
      Quota.resetQuota lim (Quota.resetQuota lim u now false) now false =
        Quota.resetQuota lim u now false) ∧
    (lim.rollover_allowed = true → 0 ≤ lim.limit →
      Quota.resetQuota lim (Quota.resetQuota lim u now false) now false =
        { Quota.resetQuota lim u now false with
            rollover_balance := Quota.pyFloorDiv lim.limit 2 }) := by
  constructor
  · intro hra
    simp [Quota.resetQuota, hra]
  · intro hra hnn
    have hfd : Quota.pyFloorDiv lim.limit 2 ≤ lim.limit := by
      unfold Quota.pyFloorDiv
      rw [Int.fdiv_eq_ediv _ (by omega)]
      omega
    simp only [Quota.resetQuota, hra, Bool.not_false, and_true, if_true,
      Bool.true_and, true_and, if_pos]
    congr 1
    simp only [sub_zero]
    rw [max_eq_right hnn, min_eq_right hfd]
    simp

/-- Witness for C6 amended at a no-rollover quota and at a rollover
quota with limit 100. -/
theorem C6_witness :
    ((⟨100, .daily, 80, none, false, 0⟩ : Quota.QuotaLimit).rollover_allowed = false ∧
      Quota.resetQuota ⟨100, .daily, 80, none, false, 0⟩
        (Quota.resetQuota ⟨100, .daily, 80, none, false, 0⟩
          ⟨80, 80, ⟨2026, 10, 11, 23, 0, 0⟩, true, false, 0, 0, []⟩
          ⟨2026, 10, 12, 9, 0, 0⟩ false)
        ⟨2026, 10, 12, 9, 0, 0⟩ false =
      Quota.resetQuota ⟨100, .daily, 80, none, false, 0⟩
        ⟨80, 80, ⟨2026, 10, 11, 23, 0, 0⟩, true, false, 0, 0, []⟩
        ⟨2026, 10, 12, 9, 0, 0⟩ false) ∧
    ((⟨100, .daily, 80, none, true, 0⟩ : Quota.QuotaLimit).rollover_allowed = true ∧
      (0 : Int) ≤ 100 ∧
      Quota.resetQuota ⟨100, .daily, 80, none, true, 0⟩
        (Quota.resetQuota ⟨100, .daily, 80, none, true, 0⟩
          ⟨80, 80, ⟨2026, 10, 11, 23, 0, 0⟩, true, false, 0, 0, []⟩
          ⟨2026, 10, 12, 9, 0, 0⟩ false)
        ⟨2026, 10, 12, 9, 0, 0⟩ false =
      { Quota.resetQuota ⟨100, .daily, 80, none, true, 0⟩
          ⟨80, 80, ⟨2026, 10, 11, 23, 0, 0⟩, true, false, 0, 0, []⟩
          ⟨2026, 10, 12, 9, 0, 0⟩ false with
          rollover_balance := Quota.pyFloorDiv 100 2 }) :=
  ⟨⟨rfl, (C6_quota_reset_idempotency ⟨100, .daily, 80, none, false, 0⟩
      ⟨80, 80, ⟨2026, 10, 11, 23, 0, 0⟩, true, false, 0, 0, []⟩
      ⟨2026, 10, 12, 9, 0, 0⟩).1 rfl⟩,
   ⟨rfl, by decide, (C6_quota_reset_idempotency ⟨100, .daily, 80, none, true, 0⟩
      ⟨80, 80, ⟨2026, 10, 11, 23, 0, 0⟩, true, false, 0, 0, []⟩
      ⟨2026, 10, 12, 9, 0, 0⟩).2 rfl (by decide)⟩⟩

namespace Quota

theorem managerConsume_global_usage (glimit : Int) (lim : QuotaLimit)
    (st : MgrState) (now : DT) (a : Int) :
    (managerConsume glimit lim st now a).2.global_usage =
      if glimit < st.global_usage + a then st.global_usage
      else st.global_usage + a := by
  unfold managerConsume
  by_cases h : st.global_usage + a > glimit
  · rw [if_pos h, if_pos h]
  · rw [if_neg h, if_neg h]
    cases consumeQuota lim st.client now a <;> rfl

theorem mgrStep_global_monotone (glimit : Int) (lim : QuotaLimit)
    (st : MgrState) (op : MgrOp)
    (h : (match op with | .consume _ a => 0 ≤ a | _ => True)) :
    st.global_usage ≤ (mgrStep glimit lim st op).global_usage := by
  cases op with
  | consume now a =>
      show st.global_usage ≤ (managerConsume glimit lim st now a).2.global_usage
      rw [managerConsume_global_usage]
      split
      · exact le_refl _
      · simpa using h
  | checkAvailable => exact le_refl _
  | resetClient now => exact le_refl _

end Quota

/-- C10: the global quota layer is never reset.  `consume_quota` is the
only operation that changes a global quota's `current_usage`, and it
only increments (by the call's amount when the check passes, not at
all when it raises); the periodic reset logic lives on the per-client
`ClientQuota` objects and `reset_client_quotas` is a forced client
reset.  Hence over any sequence of manager operations with nonnegative
amounts the global usage is monotonically nondecreasing, and once a
call's `current_usage + amount` exceeds the global limit that call
raises `QuotaExceeded` leaving the usage unchanged — as does every
later call whose amount is at least as large, since usage never
decreases. -/
theorem C10_global_quota_monotone (glimit : Int) (lim : Quota.QuotaLimit) :
    (∀ (st : Quota.MgrState) (now : Quota.DT) (a : Int),
        (Quota.managerConsume glimit lim st now a).2.global_usage =
        if glimit < st.global_usage + a then st.global_usage
        else st.global_usage + a) ∧
    (∀ (st : Quota.MgrState) (now : Quota.DT),
        (Quota.mgrStep glimit lim st (.resetClient now)).global_usage =
        st.global_usage ∧
      Quota.mgrStep glimit lim st .checkAvailable = st) ∧
    (∀ (st : Quota.MgrState) (ops : List Quota.MgrOp),
      (∀ op ∈ ops, match op with | Quota.MgrOp.consume _ a => 0 ≤ a | _ => True) →
      st.global_usage ≤ (Quota.mgrRun glimit lim st ops).global_usage) ∧
    (∀ (st : Quota.MgrState) (now : Quota.DT) (a : Int),
        glimit < st.global_usage + a →
        Quota.managerConsume glimit lim st now a = (.globalExceeded, st)) ∧
    (∀ (st : Quota.MgrState) (now : Quota.DT) (a : Int),
        glimit < st.global_usage + a →
      ∀ (g2 : Int) (c2 : Quota.QuotaUsage) (now2 : Quota.DT) (a2 : Int),
        st.global_usage ≤ g2 → a ≤ a2 →
        Quota.managerConsume glimit lim ⟨g2, c2⟩ now2 a2 =
          (.globalExceeded, ⟨g2, c2⟩)) := by
  refine ⟨Quota.managerConsume_global_usage glimit lim, ?_, ?_, ?_, ?_⟩
  · intro st now
    exact ⟨rfl, rfl⟩
  · intro st ops h
    induction ops generalizing st with
    | nil => exact le_refl _
    | cons op rest ih =>
        have h1 := Quota.mgrStep_global_monotone glimit lim st op
          (h op (by simp))
        have h2 := ih (Quota.mgrStep glimit lim st op)
          (fun o ho => h o (by simp [ho]))
        exact le_trans h1 h2
  · intro st now a h
    unfold Quota.managerConsume
    rw [if_pos h]
  · intro st now a h g2 c2 now2 a2 hg ha
    unfold Quota.managerConsume
    rw [if_pos (show (⟨g2, c2⟩ : Quota.MgrState).global_usage + a2 > glimit by
      simp only; omega)]

/-- Witness for C10: with a global limit of 10 and usage 8, a consume
of 3 raises and leaves the usage at 8; amounts stay nonnegative along
a short trace, so usage is nondecreasing. -/
theorem C10_witness :
    ((10 : Int) < 8 + 3 ∧
      Quota.managerConsume 10 ⟨100, .hourly, 80, none, false, 0⟩
        ⟨8, ⟨0, 0, ⟨2026, 10, 12, 9, 0, 0⟩, false, false, 0, 0, []⟩⟩
        ⟨2026, 10, 12, 9, 5, 0⟩ 3 =
      (.globalExceeded,
        ⟨8, ⟨0, 0, ⟨2026, 10, 12, 9, 0, 0⟩, false, false, 0, 0, []⟩⟩)) ∧
    ((∀ op ∈ ([.consume ⟨2026, 10, 12, 9, 1, 0⟩ 2,
         .checkAvailable,
         .consume ⟨2026, 10, 12, 9, 2, 0⟩ 1] : List Quota.MgrOp),
        match op with | Quota.MgrOp.consume _ a => 0 ≤ a | _ => True) ∧
      (⟨8, ⟨0, 0, ⟨2026, 10, 12, 9, 0, 0⟩, false, false, 0, 0, []⟩⟩ :
          Quota.MgrState).global_usage ≤
        (Quota.mgrRun 10 ⟨100, .hourly, 80, none, false, 0⟩
          ⟨8, ⟨0, 0, ⟨2026, 10, 12, 9, 0, 0⟩, false, false, 0, 0, []⟩⟩
          [.consume ⟨2026, 10, 12, 9, 1, 0⟩ 2,
           .checkAvailable,
           .consume ⟨2026, 10, 12, 9, 2, 0⟩ 1]).global_usage) :=
  ⟨⟨by decide,
    (C10_global_quota_monotone 10 ⟨100, .hourly, 80, none, false, 0⟩).2.2.2.1
      ⟨8, ⟨0, 0, ⟨2026, 10, 12, 9, 0, 0⟩, false, false, 0, 0, []⟩⟩
      ⟨2026, 10, 12, 9, 5, 0⟩ 3 (by decide)⟩,
   ⟨by intro op hop; fin_cases hop <;> decide,
    (C10_global_quota_monotone 10 ⟨100, .hourly, 80, none, false, 0⟩).2.2.1
      ⟨8, ⟨0, 0, ⟨2026, 10, 12, 9, 0, 0⟩, false, false, 0, 0, []⟩⟩
      [.consume ⟨2026, 10, 12, 9, 1, 0⟩ 2,
       .checkAvailable,
       .consume ⟨2026, 10, 12, 9, 2, 0⟩ 1]
      (by intro op hop; fin_cases hop <;> decide)⟩⟩

namespace Backoff

theorem produce_length (cfg : BackoffConfig) (rng : Nat → ℚ → ℚ → ℚ) :
    ∀ (es : List ℚ) (count : Nat),
      (produce cfg rng count es).length ≤ cfg.max_attempts - count := by
  intro es
  induction es with
  | nil => intro count; simp [produce]
  | cons e es ih =>
      intro count
      unfold produce
      by_cases hm : count ≥ cfg.max_attempts
      · simp [nextValue, hm]
      · by_cases ht : stopByTimeout cfg e = true
        · simp [nextValue, hm, ht]
        · rw [show nextValue cfg rng count e = some (calcDelay cfg rng count) by
            simp [nextValue, hm, ht]]
          simp only [List.length_cons]
          have h2 := ih (count + 1)
          omega

theorem produce_elapsed_ok (cfg : BackoffConfig) (rng : Nat → ℚ → ℚ → ℚ) :
    ∀ (es : List ℚ) (count i : Nat), i < (produce cfg rng count es).length →
      ∃ e, es.get? i = some e ∧ stopByTimeout cfg e = false := by
  intro es
  induction es with
  | nil => intro count i h; simp [produce] at h
  | cons e es ih =>
      intro count i h
      unfold produce at h
      by_cases hm : count ≥ cfg.max_attempts
      · simp [nextValue, hm] at h
      · by_cases ht : stopByTimeout cfg e = true
        · simp [nextValue, hm, ht] at h
        · rw [show nextValue cfg rng count e = some (calcDelay cfg rng count) by
            simp [nextValue, hm, ht]] at h
          simp only [List.length_cons] at h
          cases i with
          | zero => exact ⟨e, rfl, by simpa using ht⟩
          | succ j =>
              obtain ⟨e2, he2, hs⟩ := ih (count + 1) j (by omega)
              exact ⟨e2, by simpa using he2, hs⟩

end Backoff

/-- C9 counterexample: a fixed 10-second schedule with
`max_attempts = 2` and `total_timeout = 15`.  The iterator checks only
the elapsed wall-clock time before producing a value, so with the
second `__next__` call arriving after 10 s of sleeping it produces
`[10, 10]`, whose sum 20 exceeds the configured `total_timeout = 15` —
refuting the claim that the sum of the produced delays is bounded by
`total_timeout`. -/
theorem C9_counterexample :
    Backoff.produce
        ⟨.fixed, 10, 10, 2, 2, 300, 1, 2, 1, false, .full, 1/10, none, some 15⟩
        (fun _ _ _ => 0) 0 [0, 10] = [10, 10] ∧
    ¬ (List.sum [(10 : ℚ), 10] ≤ 15) := by
  constructor
  · norm_num [Backoff.produce, Backoff.nextValue, Backoff.stopByTimeout,
      Backoff.calcDelay, Backoff.rawDelay, Backoff.applyJitter, min_def, max_def]
  · norm_num

/-- C9 amended: the backoff iterator produces at most `max_attempts`
delay values; and when a nonzero `total_timeout` is configured, a
value is produced at a `__next__` call only while the elapsed
wall-clock time at that call is still below `total_timeout` — the
elapsed time is what is bounded, not the sum of the produced delays,
which can exceed `total_timeout`. -/
theorem C9_backoff_bounds (cfg : Backoff.BackoffConfig)
    (rng : Nat → ℚ → ℚ → ℚ) (es : List ℚ) :
    (Backoff.produce cfg rng 0 es).length ≤ cfg.max_attempts ∧
    (∀ t : ℚ, cfg.total_timeout = some t → t ≠ 0 →
      ∀ i, i < (Backoff.produce cfg rng 0 es).length →
        ∃ e, es.get? i = some e ∧ e < t) := by
  constructor
  · simpa using Backoff.produce_length cfg rng es 0
  · intro t htt ht0 i hi
    obtain ⟨e, he, hs⟩ := Backoff.produce_elapsed_ok cfg rng es 0 i hi
    refine ⟨e, he, ?_⟩
    rw [Backoff.stopByTimeout, htt] at hs
    by_contra hlt
    simp only [decide_eq_false_iff_not, not_and, not_le] at hs
    exact absurd (hs ht0) (not_lt.mpr (not_lt.mp hlt))

/-- Witness for C9 at the fixed 10-second schedule. -/
theorem C9_witness :
    ((Backoff.produce
        ⟨.fixed, 10, 10, 2, 2, 300, 1, 2, 1, false, .full, 1/10, none, some 15⟩
        (fun _ _ _ => 0) 0 [0, 10]).length ≤ 2) ∧
    ((⟨.fixed, 10, 10, 2, 2, 300, 1, 2, 1, false, .full, 1/10, none, some 15⟩ :
        Backoff.BackoffConfig).total_timeout = some 15 ∧ (15 : ℚ) ≠ 0 ∧
      0 < (Backoff.produce
        ⟨.fixed, 10, 10, 2, 2, 300, 1, 2, 1, false, .full, 1/10, none, some 15⟩
        (fun _ _ _ => 0) 0 [0, 10]).length) ∧
    (∃ e, [(0 : ℚ), 10].get? 0 = some e ∧ e < 15) :=
  ⟨(C9_backoff_bounds _ (fun _ _ _ => 0) [0, 10]).1,
   ⟨rfl, by norm_num,
    by norm_num [Backoff.produce, Backoff.nextValue, Backoff.stopByTimeout,
      Backoff.calcDelay, Backoff.rawDelay, Backoff.applyJitter, min_def, max_def]⟩,
   (C9_backoff_bounds
       ⟨.fixed, 10, 10, 2, 2, 300, 1, 2, 1, false, .full, 1/10, none, some 15⟩
       (fun _ _ _ => 0) [0, 10]).2 15 rfl (by norm_num) 0
     (by norm_num [Backoff.produce, Backoff.nextValue, Backoff.stopByTimeout,
       Backoff.calcDelay, Backoff.rawDelay, Backoff.applyJitter, min_def, max_def])⟩

namespace SQLV

theorem maxRisk_medium_mem (r : Risk) :
    maxRisk r Risk.medium ∈ ([.critical, .high, .medium] : List Risk) := by
  cases r <;> decide

theorem analyzeTokens_forbidden_nonempty (ts : List Token)
    (hforb : ∃ t ∈ ts, t.token_type ∈ forbiddenReadonly) :
    (analyzeTokens (some ts) true).1 ≠ [] := by
  obtain ⟨t, hts, htf⟩ := hforb
  have hne : ts.isEmpty = false := by
    cases ts with
    | nil => simp at hts
    | cons a l => rfl
  have hmem : "Forbidden operation in readonly mode" ∈
      ts.filterMap (fun t =>
        if t.token_type ∈ forbiddenReadonly then
          some "Forbidden operation in readonly mode" else none) :=
    List.mem_filterMap.mpr ⟨t, hts, by rw [if_pos htf]⟩
  unfold analyzeTokens
  dsimp only
  rw [if_neg (show ¬ ts.isEmpty = true by simp [hne])]
  dsimp only
  exact List.ne_nil_of_mem
    (List.mem_append_left _ (List.mem_append_left _
      (List.mem_append_left _ hmem)))

theorem blockedRisks_strict (cfg : ValidatorConfig)
    (hstrict : cfg.strict_validation = true) :
    blockedRisks cfg = [.critical, .high, .medium] := by
  unfold blockedRisks
  rw [hstrict]
  simp

theorem vqTokens_blocked (cfg : ValidatorConfig) (ts : List Token)
    (s3 : List String × Risk)
    (hro : cfg.readonly_mode = true) (hstrict : cfg.strict_validation = true)
    (hforb : ∃ t ∈ ts, t.token_type ∈ forbiddenReadonly) :
    (vqTokens cfg (some ts) s3).1 ≠ [] ∧
    (vqTokens cfg (some ts) s3).2.1 ∈ blockedRisks cfg := by
  have htr : (analyzeTokens (some ts) cfg.readonly_mode).1 ≠ [] := by
    rw [hro]
    exact analyzeTokens_forbidden_nonempty ts hforb
  unfold vqTokens
  by_cases hcond : s3.1.isEmpty ∨ s3.2 ∉ blockedRisks cfg
  · rw [if_pos hcond]
    refine ⟨?_, ?_⟩
    · simp only
      intro hx
      exact htr (List.append_eq_nil.mp hx).2
    · simp only
      rw [if_neg (by simpa [List.isEmpty_iff] using htr)]
      rw [blockedRisks_strict cfg hstrict]
      exact maxRisk_medium_mem s3.2
  · rw [if_neg hcond]
    push_neg at hcond
    exact ⟨by simpa [List.isEmpty_iff] using hcond.1, hcond.2⟩

theorem vqStructure_keeps_blocked (cfg : ValidatorConfig)
    (parseres : Option (List StmtFacts)) (s4 : List String × Risk × QueryType)
    (h1 : s4.1 ≠ []) (h2 : s4.2.1 ∈ blockedRisks cfg) :
    vqStructure cfg parseres s4 = s4 := by
  unfold vqStructure
  rw [if_neg]
  push_neg
  exact ⟨by simpa [List.isEmpty_iff] using h1, h2⟩

end SQLV

/-- C7 counterexample: with `readonly_mode = true` but
`strict_validation = false`, the query `DROP TABLE t` is accepted:
no injection pattern matches, the token analyzer's read-only violation
only raises the risk to MEDIUM, and MEDIUM is not in the blocked set
when strict validation is off — so `is_valid = true` although the
first meaningful token is the write verb DROP, refuting the claim that
the read-only gate rejects independently of any other setting.  (The
sqlglot oracle inputs are its actual outputs on this query: tokens
DROP, TABLE, VAR and one trivially parsed statement.) -/
theorem C7_counterexample :
    (SQLV.validateQuery ⟨10000, true, false⟩ "DROP TABLE t"
      (some [⟨.DROP, "DROP"⟩, ⟨.TABLE, "TABLE"⟩, ⟨.VAR, "t"⟩])
      (some [⟨[], 0, 2⟩])).is_valid = true := by
  decide

/-- C7 amended: in read-only mode **with strict validation on**, every
query whose token stream contains a write verb (in particular every
query whose first meaningful token is INSERT, UPDATE, DELETE, DROP,
CREATE, ALTER, TRUNCATE, GRANT, REVOKE, or EXECUTE) is rejected:
`validate_query` returns `is_valid = false`.  The gate is not
authoritative on its own: read-only violations carry MEDIUM risk,
which is only blocked when `strict_validation` is on. -/
theorem C7_readonly_gate (cfg : SQLV.ValidatorConfig) (query : String)
    (ts : List SQLV.Token) (parseres : Option (List SQLV.StmtFacts))
    (hro : cfg.readonly_mode = true) (hstrict : cfg.strict_validation = true)
    (hforb : ∃ t ∈ ts, t.token_type ∈ SQLV.forbiddenReadonly) :
    (SQLV.validateQuery cfg query (some ts) parseres).is_valid = false := by
  unfold SQLV.validateQuery
  dsimp only
  obtain ⟨h1, h2⟩ := SQLV.vqTokens_blocked cfg ts
    (SQLV.vqPatterns query (SQLV.vqBasic cfg query)) hro hstrict hforb
  rw [SQLV.vqStructure_keeps_blocked cfg parseres _ h1 h2]
  simp only [decide_eq_false_iff_not, not_not]
  exact h2

/-- Witness for C7: the same `DROP TABLE t` query under strict
validation is rejected. -/
theorem C7_witness :
    ((⟨10000, true, true⟩ : SQLV.ValidatorConfig).readonly_mode = true ∧
      (⟨10000, true, true⟩ : SQLV.ValidatorConfig).strict_validation = true ∧
      (∃ t ∈ ([⟨.DROP, "DROP"⟩, ⟨.TABLE, "TABLE"⟩, ⟨.VAR, "t"⟩] :
          List SQLV.Token), t.token_type ∈ SQLV.forbiddenReadonly)) ∧
    (SQLV.validateQuery ⟨10000, true, true⟩ "DROP TABLE t"
      (some [⟨.DROP, "DROP"⟩, ⟨.TABLE, "TABLE"⟩, ⟨.VAR, "t"⟩])
      (some [⟨[], 0, 2⟩])).is_valid = false :=
  ⟨⟨rfl, rfl, ⟨⟨.DROP, "DROP"⟩, by decide⟩⟩,
   C7_readonly_gate ⟨10000, true, true⟩ "DROP TABLE t"
     [⟨.DROP, "DROP"⟩, ⟨.TABLE, "TABLE"⟩, ⟨.VAR, "t"⟩]
     (some [⟨[], 0, 2⟩]) rfl rfl ⟨⟨.DROP, "DROP"⟩, by decide⟩⟩
